import Mathlib

/-!
Verification development for the schema-inference core of
pytest-jsonschema-snapshot.

The Python sources are shallowly embedded as executable Lean functions:

* Python dicts are insertion-ordered association lists with distinct keys;
* Python sets are duplicate-free lists built with insert-if-absent
  (observable behaviour never depends on hash iteration order: the code
  only takes length, membership, all-quantification, or a sorted copy);
* the regular expressions of the key-pattern detectors and of the format
  registry are hand-compiled to character-list matchers; character classes
  such as backslash-d are read over ASCII, and the dollar anchor of
  re.match is given the Python semantics that also accepts one trailing
  newline;
* the third-party genson SchemaBuilder foundation (explicitly out of
  scope in the design document, used through its interface) is modelled
  from its documented behaviour in a dedicated section below.
-/

namespace JSSnap

/-- JSON values and JSON-Schema documents. Python ints and floats are kept
apart because the number strategy of the foundation distinguishes them;
the float payload is opaque. -/
inductive Json where
  | null : Json
  | bool (b : Bool) : Json
  | int (n : Int) : Json
  | float (n : Int) : Json
  | str (s : String) : Json
  | arr (xs : List Json) : Json
  | obj (kvs : List (String × Json)) : Json
deriving Inhabited, Repr

mutual

/-- Structural equality test on JSON values. -/
def jeq : Json → Json → Bool
  | .null, .null => true
  | .bool a, .bool b => a = b
  | .int a, .int b => a = b
  | .float a, .float b => a = b
  | .str a, .str b => a = b
  | .arr xs, .arr ys => jeqList xs ys
  | .obj xs, .obj ys => jeqKVs xs ys
  | _, _ => false

def jeqList : List Json → List Json → Bool
  | [], [] => true
  | x :: xs, y :: ys => jeq x y && jeqList xs ys
  | _, _ => false

def jeqKVs : List (String × Json) → List (String × Json) → Bool
  | [], [] => true
  | (k1, v1) :: xs, (k2, v2) :: ys => k1 = k2 && jeq v1 v2 && jeqKVs xs ys
  | _, _ => false

end

mutual

theorem jeq_iff : ∀ a b : Json, jeq a b = true ↔ a = b
  | .null, b => by cases b <;> simp [jeq]
  | .bool x, b => by cases b <;> simp [jeq]
  | .int x, b => by cases b <;> simp [jeq]
  | .float x, b => by cases b <;> simp [jeq]
  | .str x, b => by cases b <;> simp [jeq]
  | .arr xs, b => by
    cases b <;> simp [jeq]
    exact jeqList_iff xs _
  | .obj xs, b => by
    cases b <;> simp [jeq]
    exact jeqKVs_iff xs _

theorem jeqList_iff : ∀ xs ys : List Json, jeqList xs ys = true ↔ xs = ys
  | [], ys => by cases ys <;> simp [jeqList]
  | x :: xs, ys => by
    cases ys with
    | nil => simp [jeqList]
    | cons y ys =>
      simp only [jeqList, Bool.and_eq_true, List.cons.injEq]
      exact and_congr (jeq_iff x y) (jeqList_iff xs ys)

theorem jeqKVs_iff :
    ∀ xs ys : List (String × Json), jeqKVs xs ys = true ↔ xs = ys
  | [], ys => by cases ys <;> simp [jeqKVs]
  | (k1, v1) :: xs, ys => by
    cases ys with
    | nil => simp [jeqKVs]
    | cons y ys =>
      obtain ⟨k2, v2⟩ := y
      simp only [jeqKVs, Bool.and_eq_true, List.cons.injEq, Prod.mk.injEq,
        decide_eq_true_eq]
      rw [jeq_iff v1 v2, jeqKVs_iff xs ys, and_assoc]

end

instance : DecidableEq Json :=
  fun a b => decidable_of_iff _ (jeq_iff a b)

mutual

/-- Size of a JSON value (counting keys), used for fuel bounds. -/
def jsize : Json → Nat
  | .null => 1
  | .bool _ => 1
  | .int _ => 1
  | .float _ => 1
  | .str _ => 1
  | .arr xs => 1 + jsizeList xs
  | .obj kvs => 1 + jsizeKVs kvs

def jsizeList : List Json → Nat
  | [] => 0
  | x :: xs => 1 + jsize x + jsizeList xs

def jsizeKVs : List (String × Json) → Nat
  | [] => 0
  | (_, v) :: t => 1 + jsize v + jsizeKVs t

end

/-- Lookup in an insertion-ordered association list (Python dict read). -/
def alookup {α : Type} (m : List (String × α)) (k : String) : Option α :=
  match m with
  | [] => none
  | (k1, v) :: t => if k1 = k then some v else alookup t k

/-- Python dict assignment: overwrite in place, else append. -/
def aset {α : Type} (m : List (String × α)) (k : String) (v : α) :
    List (String × α) :=
  match m with
  | [] => [(k, v)]
  | (k1, v1) :: t => if k1 = k then (k1, v) :: t else (k1, v1) :: aset t k v

/-- Python del of a key (keys are distinct, so filtering is faithful). -/
def aerase {α : Type} (m : List (String × α)) (k : String) :
    List (String × α) :=
  m.filter (fun kv => kv.1 ≠ k)

/-- Python set.add: append the element if it is not present yet. -/
def insertNew (xs : List String) (x : String) : List String :=
  if x ∈ xs then xs else xs ++ [x]

/-- Python set.update. -/
def unionKeys (xs newElems : List String) : List String :=
  newElems.foldl insertNew xs

/-- Python string comparison: lexicographic on code points. -/
def strListLe : List Char → List Char → Bool
  | [], _ => true
  | _ :: _, [] => false
  | a :: as, b :: bs =>
    if a.toNat < b.toNat then true
    else if b.toNat < a.toNat then false
    else strListLe as bs

def strLe (a b : String) : Bool :=
  strListLe a.data b.data

/-- Stable insertion into an ascending list of strings. -/
def insortStr (x : String) : List String → List String
  | [] => [x]
  | y :: ys => if strLe x y then x :: y :: ys else y :: insortStr x ys

/-- Python sorted() on a set of strings (ascending code-point order). -/
def sortStrs (xs : List String) : List String :=
  xs.foldr insortStr []

/-! ## ASCII character classes used by the compiled regexes -/

def isAsciiDigit (c : Char) : Bool :=
  48 ≤ c.toNat && c.toNat ≤ 57

def isAsciiLower (c : Char) : Bool :=
  97 ≤ c.toNat && c.toNat ≤ 122

def isAsciiUpper (c : Char) : Bool :=
  65 ≤ c.toNat && c.toNat ≤ 90

def isAsciiAlpha (c : Char) : Bool :=
  isAsciiLower c || isAsciiUpper c

def isAsciiAlphaNum (c : Char) : Bool :=
  isAsciiAlpha c || isAsciiDigit c

/-- The class [0-9a-f] under re.IGNORECASE. -/
def isHexDig (c : Char) : Bool :=
  isAsciiDigit c || (97 ≤ c.toNat && c.toNat ≤ 102) ||
    (65 ≤ c.toNat && c.toNat ≤ 70)

/-- Python str.isdigit restricted to ASCII input. -/
def pyIsDigit (s : String) : Bool :=
  !s.data.isEmpty && s.data.all isAsciiDigit

/-- Python str.startswith for a one-character needle. -/
def startsWithChar (s : String) (c : Char) : Bool :=
  match s.data with
  | [] => false
  | c1 :: _ => c1 = c

/-! ## Combinators for the hand-compiled regular expressions -/

/-- Consume exactly n characters satisfying p. -/
def eatN (p : Char → Bool) : Nat → List Char → Option (List Char)
  | 0, cs => some cs
  | _ + 1, [] => none
  | n + 1, c :: cs => if p c then eatN p n cs else none

/-- Consume one fixed character. -/
def eatCh (c0 : Char) : List Char → Option (List Char)
  | [] => none
  | c :: cs => if c = c0 then some cs else none

/-- Consume one character satisfying p. -/
def eatP (p : Char → Bool) : List Char → Option (List Char)
  | [] => none
  | c :: cs => if p c then some cs else none

/-- Greedily consume one or more characters satisfying p. -/
def eatMany1 (p : Char → Bool) (cs : List Char) : Option (List Char) :=
  match cs with
  | [] => none
  | c :: rest =>
    if p c then
      some (rest.dropWhile p)
    else none

/-- Python re.match with an anchored pattern: the final dollar also matches
just before a single trailing newline. -/
def pyMatch (core : List Char → Bool) (s : String) : Bool :=
  core s.data ||
    (if s.data.getLast? = some (Char.ofNat 10) then core s.data.dropLast
     else false)

/-! ## The seven key-pattern detector regexes (detectors.py) -/

/-- Core of the UUID key regex (with re.IGNORECASE). -/
def uuidCore (cs : List Char) : Bool :=
  (do
    let cs ← eatN isHexDig 8 cs
    let cs ← eatCh '-' cs
    let cs ← eatN isHexDig 4 cs
    let cs ← eatCh '-' cs
    let cs ← eatP (fun c => 49 ≤ c.toNat && c.toNat ≤ 53) cs
    let cs ← eatN isHexDig 3 cs
    let cs ← eatCh '-' cs
    let cs ← eatP (fun c => c = '8' || c = '9' || c = 'a' || c = 'b' ||
      c = 'A' || c = 'B') cs
    let cs ← eatN isHexDig 3 cs
    let cs ← eatCh '-' cs
    let cs ← eatN isHexDig 12 cs
    if cs.isEmpty then some () else none).isSome

/-- Optional timezone suffix of the ISO datetime regex. -/
def isoZoneTail (cs : List Char) : Bool :=
  match cs with
  | [] => true
  | 'Z' :: rest => rest.isEmpty
  | c :: rest =>
    (c = '+' || c = '-') &&
      (do
        let cs ← eatN isAsciiDigit 2 rest
        let cs ← eatCh ':' cs
        let cs ← eatN isAsciiDigit 2 cs
        if cs.isEmpty then some () else none).isSome

/-- Optional fraction-then-timezone suffix of the ISO datetime regex. -/
def isoFracZoneTail (cs : List Char) : Bool :=
  match cs with
  | '.' :: rest =>
    match eatMany1 isAsciiDigit rest with
    | some cs => isoZoneTail cs
    | none => false
  | _ => isoZoneTail cs

/-- The time part of the ISO datetime regex, after the letter T. -/
def isoTimeTail (cs : List Char) : Bool :=
  (do
    let cs ← eatN isAsciiDigit 2 cs
    let cs ← eatCh ':' cs
    let cs ← eatN isAsciiDigit 2 cs
    let cs ← eatCh ':' cs
    let cs ← eatN isAsciiDigit 2 cs
    if isoFracZoneTail cs then some () else none).isSome

/-- Core of the ISO date/datetime key regex (time part optional). -/
def isoDTCore (cs : List Char) : Bool :=
  (do
    let cs ← eatN isAsciiDigit 4 cs
    let cs ← eatCh '-' cs
    let cs ← eatN isAsciiDigit 2 cs
    let cs ← eatCh '-' cs
    let cs ← eatN isAsciiDigit 2 cs
    match cs with
    | [] => some ()
    | 'T' :: rest => if isoTimeTail rest then some () else none
    | _ => none).isSome

/-- Core of the ISO country/locale code regex: two or three uppercase
letters, or a locale of the shape xx-XX. -/
def isoCodeCore (cs : List Char) : Bool :=
  ((cs.length = 2 || cs.length = 3) && cs.all isAsciiUpper) ||
    (match cs with
     | [a, b, h, c, d] =>
       h = '-' && isAsciiLower a && isAsciiLower b &&
         isAsciiUpper c && isAsciiUpper d
     | _ => false)

/-- Core of the hex key regex 0x followed by hex digits (re.IGNORECASE). -/
def hexCore (cs : List Char) : Bool :=
  match cs with
  | c0 :: x :: rest =>
    c0 = '0' && (x = 'x' || x = 'X') && !rest.isEmpty && rest.all isHexDig
  | _ => false

/-- Core of the single-letter key regex. -/
def singleLetterCore (cs : List Char) : Bool :=
  match cs with
  | [c] => isAsciiAlpha c
  | _ => false

/-- Core of the positive-integer key regex. -/
def numericCore (cs : List Char) : Bool :=
  !cs.isEmpty && cs.all isAsciiDigit

/-- Core of the signed-integer key regex. -/
def negNumericCore (cs : List Char) : Bool :=
  match cs with
  | [] => false
  | c :: rest =>
    if c = '-' then !rest.isEmpty && rest.all isAsciiDigit
    else isAsciiDigit c && rest.all isAsciiDigit

/-! ## Key-pattern detectors and the orchestrator -/

/-- One key-pattern detector: priority, comment, the regex body used as
the patternProperties key, the compiled matcher and the veto hook. -/
structure KeyPatternDetector where
  name : String
  priority : Nat
  comment : String
  patternRegexBody : String
  matchesKey : String → Bool
  shouldConvert : List String → Bool

def UUIDKeyDetector : KeyPatternDetector :=
  { name := "UUIDKeyDetector", priority := 70,
    comment := "UUID keys in the standard format",
    patternRegexBody :=
      "[0-9a-f]\x7b8\x7d-[0-9a-f]\x7b4\x7d-[1-5][0-9a-f]\x7b3\x7d-[89ab][0-9a-f]\x7b3\x7d-[0-9a-f]\x7b12\x7d",
    matchesKey := pyMatch uuidCore,
    shouldConvert := fun _ => true }

def ISODateTimeDetector : KeyPatternDetector :=
  { name := "ISODateTimeDetector", priority := 60,
    comment := "Datetime in ISO format",
    patternRegexBody :=
      "\\d\x7b4\x7d-\\d\x7b2\x7d-\\d\x7b2\x7d(T\\d\x7b2\x7d:\\d\x7b2\x7d:\\d\x7b2\x7d(\\.\\d+)?(Z|[+-]\\d\x7b2\x7d:\\d\x7b2\x7d)?)?",
    matchesKey := pyMatch isoDTCore,
    shouldConvert := fun _ => true }

def ISOCodeDetector : KeyPatternDetector :=
  { name := "ISOCodeDetector", priority := 50,
    comment := "ISO country codes (2-3 letters) and languages",
    patternRegexBody :=
      "[A-Z]\x7b2,3\x7d$|^[a-z]\x7b2\x7d-[A-Z]\x7b2\x7d",
    matchesKey := pyMatch isoCodeCore,
    shouldConvert := fun _ => true }

def HexKeyDetector : KeyPatternDetector :=
  { name := "HexKeyDetector", priority := 40,
    comment := "16-digit numbers with the prefix 0x",
    patternRegexBody := "0x[0-9a-f]+",
    matchesKey := pyMatch hexCore,
    shouldConvert := fun _ => true }

def SingleLetterDetector : KeyPatternDetector :=
  { name := "SingleLetterDetector", priority := 35,
    comment := "Single-letter keys (single letters)",
    patternRegexBody := "[a-zA-Z]",
    matchesKey := pyMatch singleLetterCore,
    shouldConvert := fun _ => true }

/-- Veto hook of the signed-integer detector: defer to the
positive-integer detector when no key is negative. -/
def negNumericShouldConvert (keys : List String) : Bool :=
  let hasNegative := keys.any (fun k => startsWithChar k '-')
  let hasPositive := keys.any (fun k => !startsWithChar k '-' && pyIsDigit k)
  if hasNegative && hasPositive then true
  else if !hasNegative && hasPositive then false
  else if hasNegative && !hasPositive then true
  else true

def NegativeNumericDetector : KeyPatternDetector :=
  { name := "NegativeNumericDetector", priority := 30,
    comment := "Integers (negative and positive)",
    patternRegexBody := "-?\\d+",
    matchesKey := pyMatch negNumericCore,
    shouldConvert := negNumericShouldConvert }

def NumericStringDetector : KeyPatternDetector :=
  { name := "NumericStringDetector", priority := 32,
    comment := "Positive integers as strings",
    patternRegexBody := "\\d+",
    matchesKey := pyMatch numericCore,
    shouldConvert := fun _ => true }

/-- The detector list in declaration order (orchestrator constructor). -/
def detectorsInit : List KeyPatternDetector :=
  [UUIDKeyDetector, ISODateTimeDetector, ISOCodeDetector, HexKeyDetector,
   SingleLetterDetector, NegativeNumericDetector, NumericStringDetector]

/-- Stable descending insertion by priority (list.sort reverse=True). -/
def insByPrio (d : KeyPatternDetector) :
    List KeyPatternDetector → List KeyPatternDetector
  | [] => [d]
  | e :: es =>
    if d.priority > e.priority then d :: e :: es else e :: insByPrio d es

/-- Detectors sorted by descending priority, as held by the orchestrator. -/
def detectors : List KeyPatternDetector :=
  detectorsInit.foldr insByPrio []

/-- The anchored form of a detector pattern, as used for exclusion and
for the rejected set. -/
def anchoredOf (d : KeyPatternDetector) : String :=
  "^" ++ d.patternRegexBody ++ "$"

/-- Result record of a successful detection. -/
structure PatternInfo where
  detector : KeyPatternDetector
  patternRegex : String
  name : String
  comment : String

def mkPatternInfo (d : KeyPatternDetector) : PatternInfo :=
  { detector := d, patternRegex := d.patternRegexBody,
    name := d.name, comment := d.comment }

/-- The detector loop of detect_pattern_with_rejects. -/
def detectLoop :
    List KeyPatternDetector → List String → List String →
      Option PatternInfo → List String → Option PatternInfo × List String
  | [], _, _, found, rejected => (found, rejected)
  | d :: ds, ne, excl, found, rejected =>
    if excl ≠ [] ∧ anchoredOf d ∈ excl then
      detectLoop ds ne excl found (insertNew rejected (anchoredOf d))
    else if ne.all (fun k => d.matchesKey k) then
      if d.shouldConvert ne then
        let found1 :=
          match found with
          | none => some (mkPatternInfo d)
          | some f =>
            if d.priority > f.detector.priority then some (mkPatternInfo d)
            else some f
        detectLoop ds ne excl found1 rejected
      else
        detectLoop ds ne excl found rejected
    else
      detectLoop ds ne excl found (insertNew rejected (anchoredOf d))

/-- KeyPatternOrchestrator.detect_pattern_with_rejects. The key set is a
duplicate-free list; the exclude set likewise. -/
def detectPatternWithRejects (keys : List String) (excl : List String) :
    Option PatternInfo × List String :=
  if keys.length < 3 then (none, [])
  else
    let ne := keys.filter (fun k => k ≠ "")
    if ne.length < 3 then (none, [])
    else detectLoop detectors ne excl none []

/-! ## FormatDetector (format_detector.py)

The registry maps a string to the first fully matching format, in
registration order: email, uuid, date, date-time, uri, ipv4. The
detector uses re.fullmatch, so no trailing-newline allowance applies. -/

def isLocalChar (c : Char) : Bool :=
  isAsciiAlphaNum c || c = '.' || c = '_' || c = '%' || c = '+' || c = '-'

def isDomChar (c : Char) : Bool :=
  isAsciiAlphaNum c || c = '.' || c = '-'

/-- The domain part of the email regex: some dot splits it into a
nonempty class-conforming prefix and a final run of at least two
letters. Only the last dot can be that split. -/
def emailDomainOk (dom : List Char) : Bool :=
  let revD := dom.reverse
  let t := revD.takeWhile isAsciiAlpha
  let rest := revD.dropWhile isAsciiAlpha
  2 ≤ t.length &&
    (match rest with
     | '.' :: p => !p.isEmpty && p.all isDomChar
     | _ => false)

/-- Core of the email regex: the character classes exclude the at sign,
so the first at sign separates local part and domain. -/
def emailCore (cs : List Char) : Bool :=
  let loc := cs.takeWhile (fun c => c ≠ '@')
  match cs.dropWhile (fun c => c ≠ '@') with
  | '@' :: dom => !loc.isEmpty && loc.all isLocalChar && emailDomainOk dom
  | _ => false

/-- Core of the date regex. -/
def dateCore (cs : List Char) : Bool :=
  (do
    let cs ← eatN isAsciiDigit 4 cs
    let cs ← eatCh '-' cs
    let cs ← eatN isAsciiDigit 2 cs
    let cs ← eatCh '-' cs
    let cs ← eatN isAsciiDigit 2 cs
    if cs.isEmpty then some () else none).isSome

/-- Core of the date-time regex (the time part is mandatory here). -/
def dateTimeCore (cs : List Char) : Bool :=
  (do
    let cs ← eatN isAsciiDigit 4 cs
    let cs ← eatCh '-' cs
    let cs ← eatN isAsciiDigit 2 cs
    let cs ← eatCh '-' cs
    let cs ← eatN isAsciiDigit 2 cs
    let cs ← eatCh 'T' cs
    if isoTimeTail cs then some () else none).isSome

/-- Python whitespace class over ASCII. -/
def isPySpace (c : Char) : Bool :=
  c = ' ' || c = Char.ofNat 9 || c = Char.ofNat 10 || c = Char.ofNat 13 ||
    c = Char.ofNat 11 || c = Char.ofNat 12

def toLowerAscii (c : Char) : Char :=
  if 65 ≤ c.toNat && c.toNat ≤ 90 then Char.ofNat (c.toNat + 32) else c

/-- Core of the uri regex, with re.IGNORECASE folded in by lowering. -/
def uriCore (cs : List Char) : Bool :=
  match cs.map toLowerAscii with
  | 'h' :: 't' :: 't' :: 'p' :: rest =>
    let rest1 := match rest with
      | 's' :: r2 => r2
      | r2 => r2
    (match rest1 with
     | ':' :: '/' :: '/' :: c1 :: c2 :: tail =>
       !isPySpace c1 &&
         !(c1 = '/' || c1 = '$' || c1 = '.' || c1 = '?' || c1 = '#') &&
         c2 ≠ Char.ofNat 10 && tail.all (fun c => !isPySpace c)
     | _ => false)
  | _ => false

/-- Splitting on dots, as the ipv4 regex separator structure does. -/
def splitDots : List Char → List (List Char)
  | [] => [[]]
  | c :: rest =>
    let r := splitDots rest
    if c = '.' then [] :: r
    else
      match r with
      | h :: t => (c :: h) :: t
      | [] => [[c]]

/-- One octet of the ipv4 regex. -/
def octetOk (cs : List Char) : Bool :=
  cs.all isAsciiDigit &&
    (match cs with
     | [_] => true
     | [_, _] => true
     | [a, b, c] =>
       a = '0' || a = '1' ||
         (a = '2' && (b.toNat ≤ 52 || (b = '5' && c.toNat ≤ 53)))
     | _ => false)

/-- Core of the ipv4 regex. -/
def ipv4Core (cs : List Char) : Bool :=
  match splitDots cs with
  | [a, b, c, d] => octetOk a && octetOk b && octetOk c && octetOk d
  | _ => false

/-- FormatDetector.detect with type hint string: first registered full
match wins. -/
def fdDetect (s : String) : Option String :=
  if emailCore s.data then some "email"
  else if uuidCore s.data then some "uuid"
  else if dateCore s.data then some "date"
  else if dateTimeCore s.data then some "date-time"
  else if uriCore s.data then some "uri"
  else if ipv4Core s.data then some "ipv4"
  else none

/-! ## CustomString (string.py)

State of one CustomString strategy instance. The extra field is the
inherited genson extra-keywords store: every schema key outside the
strategy keyword list (just the key type) merged via add_schema is kept
verbatim, first value wins. The merge method of the source is never
called by the genson machinery and has no counterpart here. -/

structure CSState where
  extra : List (String × Json)
  formats : List String
  hasEmpty : Bool
  hasNoFormat : Bool
deriving Inhabited

def freshCS : CSState :=
  { extra := [], formats := [], hasEmpty := false, hasNoFormat := false }

/-- CustomString.add_object. -/
def csAddObject (cs : CSState) (s : String) : CSState :=
  if s = "" then { cs with hasEmpty := true }
  else
    match fdDetect s with
    | some f => { cs with formats := insertNew cs.formats f }
    | none => { cs with hasNoFormat := true }

/-- The genson extra-keywords merge: keys in the keyword list are
skipped, a new key is stored, an existing key keeps its first value. -/
def addExtra (extra : List (String × Json)) (keywords : List String) :
    List (String × Json) → List (String × Json)
  | [] => extra
  | (k, v) :: rest =>
    if k ∈ keywords then addExtra extra keywords rest
    else
      match alookup extra k with
      | some _ => addExtra extra keywords rest
      | none => addExtra (extra ++ [(k, v)]) keywords rest

/-- One oneOf variant processed by CustomString.add_schema. -/
def csVariantStep (cs : CSState) (v : Json) : CSState :=
  match v with
  | .obj kvs =>
    match alookup kvs "format" with
    | some (.str f) => { cs with formats := insertNew cs.formats f }
    | some _ => cs
    | none =>
      match alookup kvs "maxLength" with
      | some ml =>
        if ml = .int 0 then { cs with hasEmpty := true } else cs
      | none => { cs with hasNoFormat := true }
  | _ => cs

/-- CustomString.add_schema on a string-typed schema fragment. -/
def csAddSchema (cs : CSState) (kvs : List (String × Json)) : CSState :=
  let cs1 := { cs with extra := addExtra cs.extra ["type"] kvs }
  match alookup kvs "oneOf" with
  | some (.arr variants) => variants.foldl csVariantStep cs1
  | some _ => noOneOfStep cs1 kvs
  | none => noOneOfStep cs1 kvs
where
  /-- The elif chain for a schema without a oneOf list. -/
  noOneOfStep (cs1 : CSState) (kvs : List (String × Json)) : CSState :=
    match alookup kvs "format" with
    | some (.str f) => { cs1 with formats := insertNew cs1.formats f }
    | some _ => cs1
    | none =>
      match alookup kvs "maxLength" with
      | some ml =>
        if ml = .int 0 then { cs1 with hasEmpty := true } else cs1
      | none => { cs1 with hasNoFormat := true }

/-- CustomString.to_schema: the inherited schema is the extra keywords
plus the string type; then the format enhancement logic runs. -/
def csToSchema (cs : CSState) : Json :=
  let base := aset cs.extra "type" (Json.str "string")
  if cs.hasNoFormat then Json.obj (aerase base "format")
  else if cs.formats.isEmpty && cs.hasEmpty then
    Json.obj (aerase (aset base "maxLength" (Json.int 0)) "minLength")
  else
    match cs.formats with
    | [f] =>
      if cs.hasEmpty then csOneOfSchema cs base else
        Json.obj (aset base "format" (Json.str f))
    | _ => csOneOfSchema cs base
where
  /-- The oneOf construction branch of CustomString.to_schema. -/
  csOneOfSchema (cs : CSState) (base : List (String × Json)) : Json :=
    let variants :=
      (sortStrs cs.formats).map (fun f => Json.obj [("format", Json.str f)]) ++
        (if cs.hasEmpty then [Json.obj [("maxLength", Json.int 0)]] else [])
    let existing := aerase base "format"
    if 1 < variants.length then
      Json.obj (aset existing "oneOf" (Json.arr variants))
    else
      match variants with
      | [Json.obj vkvs] =>
        Json.obj (vkvs.foldl (fun m kv => aset m kv.1 kv.2) existing)
      | _ => Json.obj existing

/-! ## The genson SchemaBuilder foundation

The design document places the third-party schema-builder base out of
scope and assumes it as a foundation, so it is modelled here from its
documented behaviour: a schema node holds the strategies activated so
far, in first-encounter order; add_object routes a value to the first
matching active strategy or activates a new one; to_schema merges the
per-strategy schemas, collapsing pure type schemas into one type entry
and emitting anyOf otherwise; every strategy keeps schema keys outside
its keyword list verbatim (first value wins). The builder prepends the
dollar-schema uri. CustomString is registered via EXTRA_STRATEGIES and
therefore shadows the plain string strategy. -/

mutual

inductive GStrat where
  | gnull (extra : List (String × Json)) : GStrat
  | gbool (extra : List (String × Json)) : GStrat
  | gnum (isNumber : Bool) (extra : List (String × Json)) : GStrat
  | gstr (cs : CSState) : GStrat
  | glist (items : GNode) (extra : List (String × Json)) : GStrat
  | gobj (props : List (String × GNode)) (pprops : List (String × GNode))
      (required : Option (List String)) (extra : List (String × Json)) :
      GStrat
  | gtypeless (extra : List (String × Json)) : GStrat

inductive GNode where
  | mk (strats : List GStrat) : GNode

end

def GNode.strats : GNode → List GStrat
  | .mk s => s

def emptyGNode : GNode := .mk []

instance : Inhabited GNode := ⟨emptyGNode⟩

instance : Inhabited GStrat := ⟨.gtypeless []⟩

/-- Strategy instance matching for a runtime value (by python type). -/
def matchObjectStrat (s : GStrat) (j : Json) : Bool :=
  match s, j with
  | .gnull _, .null => true
  | .gbool _, .bool _ => true
  | .gnum _ _, .int _ => true
  | .gnum _ _, .float _ => true
  | .gstr _, .str _ => true
  | .glist _ _, .arr _ => true
  | .gobj _ _ _ _, .obj _ => true
  | _, _ => false

/-- The fresh strategy instance activated for a value. -/
def freshStratFor : Json → GStrat
  | .null => .gnull []
  | .bool _ => .gbool []
  | .int _ => .gnum false []
  | .float _ => .gnum false []
  | .str _ => .gstr freshCS
  | .arr _ => .glist emptyGNode []
  | .obj _ => .gobj [] [] none []

/-- The required-keys intersection of the object strategy. -/
def intersectReq (req : Option (List String)) (keys : List String) :
    Option (List String) :=
  match req with
  | none => some keys
  | some r => some (r.filter (fun k => k ∈ keys))

mutual

/-- genson SchemaNode.add_object. The fuel only bounds the recursion
depth of the model; it is decremented at every call and chosen large
enough by the callers below. -/
def addObjectNodeF : Nat → GNode → Json → GNode
  | 0, n, _ => n
  | f + 1, n, j =>
    match addObjectActiveF f n.strats j with
    | some l => .mk l
    | none => .mk (n.strats ++ [addObjectStratF f (freshStratFor j) j])

/-- Route a value to the first matching active strategy, if any. -/
def addObjectActiveF : Nat → List GStrat → Json → Option (List GStrat)
  | 0, l, _ => some l
  | f + 1, l, j =>
    match l with
    | [] => none
    | s :: ss =>
      if matchObjectStrat s j then some (addObjectStratF f s j :: ss)
      else
        match addObjectActiveF f ss j with
        | some l2 => some (s :: l2)
        | none => none

/-- One strategy absorbing one value. -/
def addObjectStratF : Nat → GStrat → Json → GStrat
  | 0, s, _ => s
  | f + 1, s, j =>
    match s, j with
    | .gnum _ e, .float _ => .gnum true e
    | .gnum isN e, _ => .gnum isN e
    | .gstr cs, .str v => .gstr (csAddObject cs v)
    | .glist items e, .arr xs => .glist (addObjectElemsF f items xs) e
    | .gobj props pprops req e, .obj kvs =>
      .gobj (addObjectPropsF f props kvs) pprops
        (intersectReq req (kvs.map (fun kv => kv.1))) e
    | s, _ => s

/-- The list strategy merges every element into one items node. -/
def addObjectElemsF : Nat → GNode → List Json → GNode
  | 0, n, _ => n
  | f + 1, n, xs =>
    match xs with
    | [] => n
    | x :: rest => addObjectElemsF f (addObjectNodeF f n x) rest

/-- The object strategy adds every value to the node of its key. -/
def addObjectPropsF :
    Nat → List (String × GNode) → List (String × Json) →
      List (String × GNode)
  | 0, props, _ => props
  | f + 1, props, kvs =>
    match kvs with
    | [] => props
    | (k, v) :: rest => addObjectPropsF f (setPropNodeF f props k v) rest

/-- Update (or create) the property node of one key with one value. -/
def setPropNodeF :
    Nat → List (String × GNode) → String → Json → List (String × GNode)
  | 0, props, _, _ => props
  | f + 1, props, k, v =>
    match props with
    | [] => [(k, addObjectNodeF f emptyGNode v)]
    | (k1, n1) :: t =>
      if k1 = k then (k1, addObjectNodeF f n1 v) :: t
      else (k1, n1) :: setPropNodeF f t k v

end

/-- Fuel bound for one value: more than enough for its nesting depth. -/
def jfuel : Json → Nat := fun j => 5 * jsize j + 5

/-- genson SchemaNode.add_object with sufficient fuel. -/
def addObjectNode (n : GNode) (j : Json) : GNode :=
  addObjectNodeF (jfuel j) n j

/-- genson SchemaNode.to_schema merge of the per-strategy schemas:
pure one-key type schemas are collected into one type entry (sorted
when several), everything else is kept in first-encounter order, and
several surviving schemas become an anyOf. -/
def mergeGenerated (schemas : List Json) : Json :=
  let step := fun (acc : List String × List Json) (sch : Json) =>
    match sch with
    | .obj [("type", .str t)] => (insertNew acc.1 t, acc.2)
    | _ => (acc.1, acc.2 ++ [sch])
  let res := schemas.foldl step ([], [])
  let generated :=
    match res.1 with
    | [] => res.2
    | [t] => Json.obj [("type", .str t)] :: res.2
    | ts => Json.obj [("type", Json.arr ((sortStrs ts).map Json.str))] :: res.2
  match generated with
  | [] => Json.obj []
  | [g] => g
  | gs => Json.obj [("anyOf", Json.arr gs)]

mutual

/-- genson SchemaNode.to_schema. -/
def toSchemaNode : GNode → Json
  | .mk l => mergeGenerated (toSchemaStrats l)

def toSchemaStrats : List GStrat → List Json
  | [] => []
  | s :: ss => toSchemaStrat s :: toSchemaStrats ss

/-- genson strategy to_schema: extra keywords first, then the type and
the structural keywords of the strategy. -/
def toSchemaStrat : GStrat → Json
  | .gnull e => Json.obj (aset e "type" (Json.str "null"))
  | .gbool e => Json.obj (aset e "type" (Json.str "boolean"))
  | .gnum isN e =>
    Json.obj (aset e "type" (Json.str (if isN then "number" else "integer")))
  | .gstr cs => csToSchema cs
  | .glist items e =>
    let base := aset e "type" (Json.str "array")
    if items.strats.isEmpty then Json.obj base
    else Json.obj (aset base "items" (toSchemaNode items))
  | .gobj props pprops req e =>
    let base := aset e "type" (Json.str "object")
    let base :=
      if props.isEmpty then base
      else aset base "properties" (Json.obj (toSchemaProps props))
    let base :=
      if pprops.isEmpty then base
      else aset base "patternProperties" (Json.obj (toSchemaProps pprops))
    let base :=
      match req with
      | some r =>
        if r.isEmpty then base
        else aset base "required" (Json.arr ((sortStrs r).map Json.str))
      | none => base
    Json.obj base
  | .gtypeless e => Json.obj e

def toSchemaProps : List (String × GNode) → List (String × Json)
  | [] => []
  | (k, n) :: t => (k, toSchemaNode n) :: toSchemaProps t

end

/-! ## genson add_schema -/

/-- Result of routing a schema fragment to the active strategies. -/
inductive ActiveRes where
  | noMatch : ActiveRes
  | failed : ActiveRes
  | ok (l : List GStrat) : ActiveRes

/-- Strategy instance matching for a schema fragment (by its type key). -/
def matchSchemaStrat (s : GStrat) (kvs : List (String × Json)) : Bool :=
  match s, alookup kvs "type" with
  | .gnull _, some (.str "null") => true
  | .gbool _, some (.str "boolean") => true
  | .gnum _ _, some (.str "integer") => true
  | .gnum _ _, some (.str "number") => true
  | .gstr _, some (.str "string") => true
  | .glist _ _, some (.str "array") => true
  | .gobj _ _ _ _, some (.str "object") => true
  | .gtypeless _, none => true
  | _, _ => false

/-- The fresh strategy activated for a schema fragment; none when the
type is unrecognized (the foundation raises there). -/
def freshStratForSchema (kvs : List (String × Json)) : Option GStrat :=
  match alookup kvs "type" with
  | some (.str "null") => some (.gnull [])
  | some (.str "boolean") => some (.gbool [])
  | some (.str "integer") => some (.gnum false [])
  | some (.str "number") => some (.gnum false [])
  | some (.str "string") => some (.gstr freshCS)
  | some (.str "array") => some (.glist emptyGNode [])
  | some (.str "object") => some (.gobj [] [] none [])
  | none => some (.gtypeless [])
  | some _ => none

/-- Extract the required key set of a schema fragment. -/
def requiredStrings : List Json → Option (List String)
  | [] => some []
  | .str s :: rest => (requiredStrings rest).map (fun l => s :: l)
  | _ => none

mutual

/-- genson SchemaNode.add_schema: split into subschemas, then add each.
The fuel is decremented at every call; failure is returned as none the
way the source raises. -/
def addSchemaNodeF : Nat → GNode → Json → Option GNode
  | 0, _, _ => none
  | f + 1, n, j => do
    let subs ← getSubschemasF f j
    addSchemaSubsF f n subs

/-- genson SchemaNode._get_subschemas: flatten anyOf recursively and
split a type list into one schema per type. -/
def getSubschemasF : Nat → Json → Option (List Json)
  | 0, _ => none
  | f + 1, j =>
    match j with
    | .obj kvs =>
      match alookup kvs "anyOf" with
      | some (.arr subs) => getSubschemasListF f subs
      | some _ => none
      | none =>
        match alookup kvs "type" with
        | some (.arr ts) =>
          some (ts.map (fun t => Json.obj (aset kvs "type" t)))
        | _ => some [j]
    | _ => none

def getSubschemasListF : Nat → List Json → Option (List Json)
  | 0, _ => none
  | _ + 1, [] => some []
  | f + 1, s :: rest => do
    let a ← getSubschemasF f s
    let b ← getSubschemasListF f rest
    pure (a ++ b)

def addSchemaSubsF : Nat → GNode → List Json → Option GNode
  | 0, _, _ => none
  | _ + 1, n, [] => some n
  | f + 1, n, s :: rest => do
    let n2 ← addSchemaOneF f n s
    addSchemaSubsF f n2 rest

/-- Add one subschema: first matching active strategy, else a fresh one
for its type. Non-dict fragments fail as in the source. -/
def addSchemaOneF : Nat → GNode → Json → Option GNode
  | 0, _, _ => none
  | f + 1, n, j =>
    match j with
    | .obj kvs =>
      match addSchemaActiveF f n.strats kvs with
      | .ok l => some (.mk l)
      | .failed => none
      | .noMatch =>
        match freshStratForSchema kvs with
        | some s0 =>
          (addSchemaStratF f s0 kvs).map
            (fun s1 => GNode.mk (n.strats ++ [s1]))
        | none => none
    | _ => none

def addSchemaActiveF :
    Nat → List GStrat → List (String × Json) → ActiveRes
  | 0, _, _ => .failed
  | f + 1, l, kvs =>
    match l with
    | [] => .noMatch
    | s :: ss =>
      if matchSchemaStrat s kvs then
        match addSchemaStratF f s kvs with
        | some s2 => .ok (s2 :: ss)
        | none => .failed
      else
        match addSchemaActiveF f ss kvs with
        | .ok l2 => .ok (s :: l2)
        | r => r

/-- One strategy absorbing one schema fragment: extra keywords first,
then the structural keywords of the strategy. -/
def addSchemaStratF :
    Nat → GStrat → List (String × Json) → Option GStrat
  | 0, _, _ => none
  | f + 1, s, kvs =>
    match s with
    | .gnull e => some (.gnull (addExtra e ["type"] kvs))
    | .gbool e => some (.gbool (addExtra e ["type"] kvs))
    | .gnum isN e =>
      some (.gnum (isN || alookup kvs "type" = some (.str "number"))
        (addExtra e ["type"] kvs))
    | .gstr cs => some (.gstr (csAddSchema cs kvs))
    | .glist items e =>
      let e2 := addExtra e ["type", "items"] kvs
      match alookup kvs "items" with
      | none => some (.glist items e2)
      | some itemsSchema =>
        (addSchemaNodeF f items itemsSchema).map (fun n2 => .glist n2 e2)
    | .gobj props pprops req e =>
      let e2 :=
        addExtra e ["type", "properties", "patternProperties", "required"]
          kvs
      match alookup kvs "properties" with
      | some (.obj pkvs) =>
        (addSchemaPropsF f props pkvs).bind (fun props2 =>
          addSchemaObjRest f props2 pprops req e2 kvs)
      | some _ => none
      | none => addSchemaObjRest f props pprops req e2 kvs
    | .gtypeless e => some (.gtypeless (addExtra e ["type"] kvs))

/-- patternProperties and required handling of the object strategy. -/
def addSchemaObjRest : Nat → List (String × GNode) → List (String × GNode) →
    Option (List String) → List (String × Json) → List (String × Json) →
    Option GStrat
  | 0, _, _, _, _, _ => none
  | f + 1, props, pprops, req, e2, kvs =>
    let contR := fun (pprops2 : List (String × GNode)) =>
      match alookup kvs "required" with
      | some (.arr rs) =>
        (requiredStrings rs).map (fun keys =>
          GStrat.gobj props pprops2 (intersectReq req keys) e2)
      | some _ => none
      | none => some (GStrat.gobj props pprops2 req e2)
    match alookup kvs "patternProperties" with
    | some (.obj qkvs) => (addSchemaPropsF f pprops qkvs).bind contR
    | some _ => none
    | none => contR pprops

def addSchemaPropsF :
    Nat → List (String × GNode) → List (String × Json) →
      Option (List (String × GNode))
  | 0, _, _ => none
  | _ + 1, props, [] => some props
  | f + 1, props, (k, sub) :: rest => do
    let n1 ← addSchemaNodeF f ((alookup props k).getD emptyGNode) sub
    addSchemaPropsF f (aset props k n1) rest

end

/-- genson SchemaNode.add_schema with sufficient fuel. -/
def addSchemaNode (n : GNode) (j : Json) : Option GNode :=
  addSchemaNodeF (jfuel j) n j

/-! ## PseudoArrayConverter (pseudo_arrays/pseudo_array_converter.py) -/

/-- State of one PseudoArrayConverter: key sets per path, recorded
pseudo-array objects per path, pattern blacklists per path, and the
underlying genson root node. -/
structure PAState where
  pathKeys : List (String × List String)
  pseudoArrays : List (String × List Json)
  blacklist : List (String × List String)
  root : GNode
deriving Inhabited

def freshPA : PAState :=
  { pathKeys := [], pseudoArrays := [], blacklist := [], root := emptyGNode }

def schemaUri : String := "https://json-schema.org/draft/2020-12/schema"

/-- _collect_pseudo_arrays. The budget is 1001 minus the source depth
counter, so budget zero is exactly the depth guard firing. -/
def collectPseudo : Nat → PAState → Json → String → PAState
  | 0, st, _, _ => st
  | b + 1, st, j, path =>
    match j with
    | .obj kvs =>
      let curKeys := kvs.map (fun kv => kv.1)
      let st1 :=
        { st with
          pathKeys :=
            aset st.pathKeys path
              (unionKeys ((alookup st.pathKeys path).getD []) curKeys) }
      let descend := fun (st2 : PAState) =>
        kvs.foldl
          (fun acc kv => collectPseudo b acc kv.2 (path ++ "/" ++ kv.1))
          st2
      if 3 ≤ kvs.length then
        let bl := (alookup st1.blacklist path).getD []
        let res := detectPatternWithRejects curKeys bl
        match res.1 with
        | some _ =>
          let st2 :=
            { st1 with
              pseudoArrays :=
                aset st1.pseudoArrays path
                  (((alookup st1.pseudoArrays path).getD []) ++ [j]) }
          if res.2.isEmpty then st2
          else
            { st2 with
              blacklist := aset st2.blacklist path (unionKeys bl res.2) }
        | none =>
          let st2 :=
            if res.2.isEmpty then st1
            else
              { st1 with
                blacklist := aset st1.blacklist path (unionKeys bl res.2) }
          descend st2
      else descend st1
    | .arr xs =>
      (xs.enum).foldl
        (fun acc p => collectPseudo b acc p.2 (path ++ "/" ++ toString p.1))
        st
    | _ => st

/-- PseudoArrayConverter.add_object: collect, then the base builder. -/
def addObjectPA (st : PAState) (j : Json) : PAState :=
  let st1 := collectPseudo 1001 st j "#"
  { st1 with root := addObjectNode st1.root j }

/-- PseudoArrayConverter.add_schema is the inherited base add_schema
(the converter defines no override, so the collect state is untouched). -/
def addSchemaPA (st : PAState) (j : Json) : Option PAState :=
  let j1 :=
    match j with
    | .obj kvs => Json.obj (aerase kvs "$schema")
    | other => other
  (addSchemaNode st.root j1).map (fun r => { st with root := r })

/-- The base builder document: the dollar-schema uri, updated with the
root node schema. -/
def builderDoc (st : PAState) : Json :=
  match toSchemaNode st.root with
  | .obj kvs =>
    Json.obj (kvs.foldl (fun m kv => aset m kv.1 kv.2)
      [("$schema", Json.str schemaUri)])
  | j => j

def jGet (j : Json) (k : String) : Option Json :=
  match j with
  | .obj kvs => alookup kvs k
  | _ => none

def jSet (j : Json) (k : String) (v : Json) : Json :=
  match j with
  | .obj kvs => Json.obj (aset kvs k v)
  | _ => j

def objValues : Json → List Json
  | .obj kvs => kvs.map (fun kv => kv.2)
  | _ => []

/-- The replacement node built for a detected pseudo-array. -/
def pseudoNodeOf (p : PatternInfo) (element : Json) (bl : List String) :
    Json :=
  let anch := "^" ++ p.patternRegex ++ "$"
  Json.obj ([("type", Json.str "object"),
    ("propertyNames", Json.obj [("pattern", Json.str anch)]),
    ("patternProperties", Json.obj [(anch, element)]),
    ("additionalProperties", Json.bool false),
    ("patternComment", Json.str p.comment)] ++
    (if bl.isEmpty then []
     else [("excludePatterns", Json.arr ((sortStrs bl).map Json.str))]))

/-- Size of the recorded pseudo-array objects, used as the fuel bound
for the nesting of element builders inside to_schema. -/
def pmeasure (st : PAState) : Nat :=
  (st.pseudoArrays.map (fun e => jsizeList e.2)).sum

/-- The recursive child-rewriting step of the walk of
_convert_pseudo_arrays_in_schema, with the recursive call abstracted as
go (the walk passes the child value and its path and increments the
depth itself). -/
def convertChild (go : Json → String → Json) (node0 : Json) (path : String) :
    Json :=
  let nodeA :=
    if jGet node0 "type" = some (.str "object") then
      let nodeB :=
        match jGet node0 "properties" with
        | some (.obj pkvs) =>
          jSet node0 "properties"
            (Json.obj (pkvs.map (fun kv =>
              (kv.1, go kv.2 (path ++ "/" ++ kv.1)))))
        | _ => node0
      match jGet nodeB "patternProperties" with
      | some (.obj qkvs) =>
        jSet nodeB "patternProperties"
          (Json.obj (qkvs.map (fun kv => (kv.1, go kv.2 (path ++ "/*")))))
      | _ => nodeB
    else if jGet node0 "type" = some (.str "array") then
      match jGet node0 "items" with
      | some (.obj ikvs) =>
        jSet node0 "items" (go (Json.obj ikvs) (path ++ "/0"))
      | some (.arr its) =>
        jSet node0 "items"
          (Json.arr ((its.enum).map (fun p =>
            go p.2 (path ++ "/" ++ toString p.1))))
      | _ => node0
    else node0
  ["oneOf", "anyOf", "allOf"].foldl
    (fun nd c =>
      match jGet nd c with
      | some (.arr vs) => jSet nd c (Json.arr (vs.map (fun v => go v path)))
      | _ => nd)
    nodeA

/-- _convert_pseudo_arrays_in_schema, as a pure reconstruction. The
depth argument is the source depth counter with its guard at 1000. The
fuel argument is a modelling device: it is consumed once per recursion
level and once per nested element builder, and the callers below choose
it large enough that it never runs out before the source guard (see the
fuel lemmas); recursion on it is structural so the function computes. -/
def convertNode : Nat → PAState → Json → String → Nat → Json
  | 0, _, node, _, _ => node
  | f + 1, st, node, path, depth =>
    if 1000 < depth then node
    else
      match alookup st.pseudoArrays path with
      | some objs =>
        let inner := (objs.flatMap objValues).foldl addObjectPA freshPA
        let element :=
          match f with
          | 0 => builderDoc inner
          | g + 1 => convertNode g inner (builderDoc inner) "#" 0
        let keys := (alookup st.pathKeys path).getD []
        let bl := (alookup st.blacklist path).getD []
        match (detectPatternWithRejects keys bl).1 with
        | some pinfo => pseudoNodeOf pinfo element bl
        | none =>
          convertChild (fun j p => convertNode f st j p (depth + 1)) node path
      | none =>
        convertChild (fun j p => convertNode f st j p (depth + 1)) node path

/-- PseudoArrayConverter.to_schema at a given fuel: the base builder
document, then the rewriting walk started at the root path. -/
def toSchemaFuelPA (f : Nat) (st : PAState) : Json :=
  match f with
  | 0 => builderDoc st
  | g + 1 => convertNode g st (builderDoc st) "#" 0

/-- A fuel that is always sufficient for one converter state. -/
def fuelPA (st : PAState) : Nat :=
  (pmeasure st + 1) * 2005

/-- PseudoArrayConverter.to_schema with sufficient nesting fuel. -/
def toSchemaPA (st : PAState) : Json :=
  toSchemaFuelPA (fuelPA st) st

/-! ## JsonToSchemaConverter facade (to_schema_converter.py) -/

structure FacadeState where
  formatMode : String
  pa : PAState
deriving Inhabited

def freshFacade (mode : String) : FacadeState :=
  { formatMode := mode, pa := freshPA }

def facadeAddObject (fs : FacadeState) (j : Json) : FacadeState :=
  { fs with pa := addObjectPA fs.pa j }

def facadeAddSchema (fs : FacadeState) (j : Json) : Option FacadeState :=
  (addSchemaPA fs.pa j).map (fun st => { fs with pa := st })

/-- A oneOf list is format-derived when every variant is a one-key
format schema or the empty-string maxLength-zero schema, with at least
one format variant. -/
def isFormatVariant : Json → Bool
  | .obj [("format", .str _)] => true
  | _ => false

def isEmptyVariant : Json → Bool
  | .obj [("maxLength", .int 0)] => true
  | _ => false

def formatDerivedOneOf (v : Json) : Bool :=
  match v with
  | .arr vs =>
    vs.all (fun x => isFormatVariant x || isEmptyVariant x) &&
      vs.any isFormatVariant
  | _ => false

mutual

/-- Modelled from the spec: JsonToSchemaConverter.to_schema calls a
method _strip_formats for format_mode off, and that method is defined
nowhere in the repository sources; the design document specifies the
off mode as strip all format and format-derived oneOf annotations, so
this walk removes every format key and every format-derived oneOf. -/
def stripFormats : Json → Json
  | .obj kvs => Json.obj (stripKVs kvs)
  | .arr xs => Json.arr (stripList xs)
  | j => j

def stripKVs : List (String × Json) → List (String × Json)
  | [] => []
  | (k, v) :: t =>
    if k = "format" then stripKVs t
    else if k = "oneOf" && formatDerivedOneOf v then stripKVs t
    else (k, stripFormats v) :: stripKVs t

def stripList : List Json → List Json
  | [] => []
  | x :: xs => stripFormats x :: stripList xs

end

def vocabularyJson : Json :=
  Json.obj
    [("https://json-schema.org/draft/2020-12/vocab/core", Json.bool true),
     ("https://json-schema.org/draft/2020-12/vocab/applicator",
       Json.bool true),
     ("https://json-schema.org/draft/2020-12/vocab/format-annotation",
       Json.bool true),
     ("https://json-schema.org/draft/2020-12/vocab/format-assertion",
       Json.bool false)]

/-- Python dict.setdefault. -/
def jSetDefault (j : Json) (k : String) (v : Json) : Json :=
  match j with
  | .obj kvs =>
    match alookup kvs k with
    | some _ => j
    | none => Json.obj (aset kvs k v)
  | _ => j

/-- JsonToSchemaConverter.to_schema. -/
def facadeToSchema (fs : FacadeState) : Json :=
  let schema := toSchemaPA fs.pa
  if fs.formatMode = "off" then stripFormats schema
  else if fs.formatMode = "safe" then
    jSetDefault schema "$vocabulary" vocabularyJson
  else schema

/-- The source performs no assignment to any converter attribute on the
whole to_schema path, so the state-passing translation returns the
state unchanged. -/
def facadeToSchemaRun (fs : FacadeState) : Json × FacadeState :=
  (facadeToSchema fs, fs)

/-! ## Statement helpers -/

/-- Chained key lookup along a path of object keys. -/
def jGetPath : Json → List String → Option Json
  | j, [] => some j
  | j, k :: ks =>
    match jGet j k with
    | some v => jGetPath v ks
    | none => none

mutual

/-- Does any object node anywhere in the document carry this key? -/
def hasKeyDeep : Json → String → Bool
  | .obj kvs, k => (alookup kvs k).isSome || hasKeyDeepKVs kvs k
  | .arr xs, k => hasKeyDeepList xs k
  | _, _ => false

def hasKeyDeepKVs : List (String × Json) → String → Bool
  | [], _ => false
  | (_, v) :: t, k => hasKeyDeep v k || hasKeyDeepKVs t k

def hasKeyDeepList : List Json → String → Bool
  | [], _ => false
  | x :: xs, k => hasKeyDeep x k || hasKeyDeepList xs k

end

mutual

/-- No object node anywhere carries a format-derived oneOf list. -/
def noDerivedDeep : Json → Bool
  | .obj kvs =>
    (match alookup kvs "oneOf" with
     | some v => !formatDerivedOneOf v
     | none => true) && noDerivedDeepKVs kvs
  | .arr xs => noDerivedDeepList xs
  | _ => true

def noDerivedDeepKVs : List (String × Json) → Bool
  | [] => true
  | (_, v) :: t => noDerivedDeep v && noDerivedDeepKVs t

def noDerivedDeepList : List Json → Bool
  | [] => true
  | x :: xs => noDerivedDeep x && noDerivedDeepList xs

end

/-- Insertion into a key-sorted association list. -/
def insortKV (kv : String × Json) :
    List (String × Json) → List (String × Json)
  | [] => [kv]
  | kv1 :: t =>
    if strLe kv.1 kv1.1 then kv :: kv1 :: t else kv1 :: insortKV kv t

mutual

/-- Normal form for comparing documents the way python compares dicts:
object keys are sorted recursively, list order is kept. -/
def nf : Json → Json
  | .obj kvs => Json.obj ((nfKVs kvs).foldr insortKV [])
  | .arr xs => Json.arr (nfList xs)
  | j => j

def nfKVs : List (String × Json) → List (String × Json)
  | [] => []
  | (k, v) :: t => (k, nf v) :: nfKVs t

def nfList : List Json → List Json
  | [] => []
  | x :: xs => nf x :: nfList xs

end

/-! ## Concrete scenario inputs -/

/-- The pseudo-array example of the specification. -/
def ordersExample : Json :=
  Json.obj [("orders",
    Json.obj [("0", Json.int 1), ("1", Json.int 2), ("2", Json.int 3)])]

def ordersExampleOut : Json :=
  facadeToSchema (facadeAddObject (freshFacade "on") ordersExample)

/-- Two values whose merged field schemas both carry more than a type. -/
def emailValue : Json := Json.obj [("f", Json.str "a@b.com")]

def arrayValue : Json := Json.obj [("f", Json.arr [Json.int 1])]

def orderOutAB : Json :=
  facadeToSchema
    (facadeAddObject (facadeAddObject (freshFacade "on") emailValue)
      arrayValue)

def orderOutBA : Json :=
  facadeToSchema
    (facadeAddObject (facadeAddObject (freshFacade "on") arrayValue)
      emailValue)

/-- A document of the shape the system itself produces for a detected
pseudo-array below one named property, with both annotation keywords. -/
def roundTripDoc (k P c : String) (e : List String) (E : Json) : Json :=
  Json.obj
    [("type", Json.str "object"),
     ("properties", Json.obj
       [(k, Json.obj
         [("type", Json.str "object"),
          ("propertyNames", Json.obj [("pattern", Json.str ("^" ++ P ++ "$"))]),
          ("patternProperties", Json.obj [(("^" ++ P ++ "$"), E)]),
          ("additionalProperties", Json.bool false),
          ("patternComment", Json.str c),
          ("excludePatterns", Json.arr (e.map Json.str))])]),
     ("required", Json.arr [Json.str k])]

def roundTripDocC : Json :=
  roundTripDoc "orders" "\\d+" "Positive integers as strings"
    ["^[a-zA-Z]$"] (Json.obj [("type", Json.str "integer")])

def roundTripState : FacadeState :=
  (facadeAddSchema (freshFacade "on") roundTripDocC).getD (freshFacade "on")

/-- A previously produced string schema with a format-derived oneOf,
merged into a fresh builder before an unformatted string arrives. -/
def mergedOneOfDoc : Json :=
  Json.obj
    [("type", Json.str "object"),
     ("properties", Json.obj
       [("f", Json.obj
         [("type", Json.str "string"),
          ("oneOf", Json.arr
            [Json.obj [("format", Json.str "email")],
             Json.obj [("maxLength", Json.int 0)]])])])]

def mergedOneOfOut : Json :=
  match facadeAddSchema (freshFacade "on") mergedOneOfDoc with
  | some fs =>
    facadeToSchema (facadeAddObject fs (Json.obj [("f", Json.str "plain text")]))
  | none => Json.null

/-- Three UUID-keyed entries, then a merge that adds a non-UUID key. -/
def uuidSample : Json :=
  Json.obj
    [("550e8400-e29b-41d4-a716-446655440000", Json.int 1),
     ("6ba7b810-9dad-11d1-80b4-00c04fd430c8", Json.int 2),
     ("6ba7b811-9dad-11d1-80b4-00c04fd430c8", Json.int 3)]

def mixedSample : Json :=
  Json.obj
    [("550e8400-e29b-41d4-a716-446655440000", Json.int 1),
     ("6ba7b810-9dad-11d1-80b4-00c04fd430c8", Json.int 2),
     ("6ba7b811-9dad-11d1-80b4-00c04fd430c8", Json.int 3),
     ("notauuid", Json.int 4)]

def uuidSessionState : PAState :=
  addObjectPA (addObjectPA freshPA uuidSample) mixedSample

/-! ## Basic facts about the detector loop -/

theorem mem_insertNew_self (xs : List String) (x : String) :
    x ∈ insertNew xs x := by
  unfold insertNew
  by_cases h : x ∈ xs
  · simp [h]
  · simp [h]

theorem mem_insertNew_of_mem (xs : List String) (x y : String)
    (h : y ∈ xs) : y ∈ insertNew xs x := by
  unfold insertNew
  by_cases h1 : x ∈ xs
  · simpa [h1]
  · simp [h1, h]

/-- Membership in the accumulated rejected set is preserved by the loop. -/
theorem detectLoop_rejected_mono :
    ∀ (ds : List KeyPatternDetector) (ne excl : List String)
      (found : Option PatternInfo) (rej : List String) (p : String),
      p ∈ rej → p ∈ (detectLoop ds ne excl found rej).2
  | [], _, _, _, _, _, h => h
  | d :: ds, ne, excl, found, rej, p, h => by
    unfold detectLoop
    by_cases h1 : excl ≠ [] ∧ anchoredOf d ∈ excl
    · simp only [if_pos h1]
      exact detectLoop_rejected_mono ds ne excl found _ p
        (mem_insertNew_of_mem _ _ _ h)
    · simp only [if_neg h1]
      by_cases h2 : ne.all (fun k => d.matchesKey k)
      · simp only [if_pos h2]
        by_cases h3 : d.shouldConvert ne
        · simp only [if_pos h3]
          exact detectLoop_rejected_mono ds ne excl _ rej p h
        · simp only [if_neg h3]
          exact detectLoop_rejected_mono ds ne excl found rej p h
      · simp only [if_neg h2]
        exact detectLoop_rejected_mono ds ne excl found _ p
          (mem_insertNew_of_mem _ _ _ h)

/-- A detector whose anchored pattern is excluded always ends up in the
rejected set, whether or not the keys match it. -/
theorem detectLoop_excluded_rejected :
    ∀ (ds : List KeyPatternDetector) (ne excl : List String)
      (found : Option PatternInfo) (rej : List String)
      (d : KeyPatternDetector),
      d ∈ ds → anchoredOf d ∈ excl →
      anchoredOf d ∈ (detectLoop ds ne excl found rej).2
  | [], _, _, _, _, _, hmem, _ => by cases hmem
  | d0 :: ds, ne, excl, found, rej, d, hmem, hexcl => by
    have hne : excl ≠ [] := by
      intro h0
      rw [h0] at hexcl
      cases hexcl
    rcases List.mem_cons.mp hmem with heq | htail
    · subst heq
      unfold detectLoop
      simp only [if_pos (And.intro hne hexcl)]
      exact detectLoop_rejected_mono ds ne excl found _ _
        (mem_insertNew_self _ _)
    · unfold detectLoop
      by_cases h1 : excl ≠ [] ∧ anchoredOf d0 ∈ excl
      · simp only [if_pos h1]
        exact detectLoop_excluded_rejected ds ne excl found _ d htail hexcl
      · simp only [if_neg h1]
        by_cases h2 : ne.all (fun k => d0.matchesKey k)
        · simp only [if_pos h2]
          by_cases h3 : d0.shouldConvert ne
          · simp only [if_pos h3]
            exact detectLoop_excluded_rejected ds ne excl _ rej d htail hexcl
          · simp only [if_neg h3]
            exact detectLoop_excluded_rejected ds ne excl found rej d htail
              hexcl
        · simp only [if_neg h2]
          exact detectLoop_excluded_rejected ds ne excl found _ d htail hexcl

/-- The loop never selects a detector whose anchored pattern is excluded:
the invariant is that any candidate already found is not excluded. -/
theorem detectLoop_found_not_excluded :
    ∀ (ds : List KeyPatternDetector) (ne excl : List String)
      (found : Option PatternInfo) (rej : List String),
      (∀ i, found = some i → anchoredOf i.detector ∉ excl) →
      ∀ i, (detectLoop ds ne excl found rej).1 = some i →
        anchoredOf i.detector ∉ excl
  | [], _, _, _, _, hinv, i, hi => hinv i hi
  | d :: ds, ne, excl, found, rej, hinv, i, hi => by
    unfold detectLoop at hi
    by_cases h1 : excl ≠ [] ∧ anchoredOf d ∈ excl
    · rw [if_pos h1] at hi
      exact detectLoop_found_not_excluded ds ne excl found _ hinv i hi
    · rw [if_neg h1] at hi
      by_cases h2 : ne.all (fun k => d.matchesKey k)
      · rw [if_pos h2] at hi
        by_cases h3 : d.shouldConvert ne
        · rw [if_pos h3] at hi
          refine detectLoop_found_not_excluded ds ne excl _ rej ?_ i hi
          intro j hj
          have hd : anchoredOf d ∉ excl := by
            intro hmem
            by_cases hemp : excl = []
            · rw [hemp] at hmem
              cases hmem
            · exact h1 (And.intro hemp hmem)
          cases hfound : found with
          | none =>
            rw [hfound] at hj
            simp only [Option.some.injEq] at hj
            subst hj
            exact hd
          | some f =>
            rw [hfound] at hj
            by_cases h4 : d.priority > f.detector.priority
            · simp only [if_pos h4, Option.some.injEq] at hj
              subst hj
              exact hd
            · simp only [if_neg h4, Option.some.injEq] at hj
              subst hj
              exact hinv f hfound
        · rw [if_neg h3] at hi
          exact detectLoop_found_not_excluded ds ne excl found rej hinv i hi
      · rw [if_neg h2] at hi
        exact detectLoop_found_not_excluded ds ne excl found _ hinv i hi

/-- Whenever detection runs at all, a selected pattern is never one of
the excluded (blacklisted) patterns. -/
theorem detect_found_not_excluded (keys excl : List String) (i : PatternInfo)
    (hi : (detectPatternWithRejects keys excl).1 = some i) :
    anchoredOf i.detector ∉ excl := by
  unfold detectPatternWithRejects at hi
  by_cases h3 : keys.length < 3
  · rw [if_pos h3] at hi
    cases hi
  · rw [if_neg h3] at hi
    by_cases h4 : (keys.filter (fun k => k ≠ "")).length < 3
    · simp only [if_pos h4] at hi
      cases hi
    · simp only [if_neg h4] at hi
      exact detectLoop_found_not_excluded detectors _ excl none [] (by
        intro j hj
        cases hj) i hi


/-! ## Association list and set lemmas -/

theorem alookup_aset_self {α : Type} (m : List (String × α)) (k : String)
    (v : α) : alookup (aset m k v) k = some v := by
  induction m with
  | nil => simp [aset, alookup]
  | cons kv t ih =>
    obtain ⟨k1, v1⟩ := kv
    by_cases h : k1 = k
    · simp [aset, alookup, h]
    · simp [aset, alookup, h, ih]

theorem alookup_aerase_self {α : Type} (m : List (String × α))
    (k : String) : alookup (aerase m k) k = none := by
  induction m with
  | nil => simp [aerase, alookup]
  | cons kv t ih =>
    obtain ⟨k1, v1⟩ := kv
    by_cases h : k1 = k
    · simpa [aerase, alookup, h] using ih
    · simpa [aerase, alookup, h] using ih

theorem mem_unionKeys_left (xs ys : List String) (p : String)
    (h : p ∈ xs) : p ∈ unionKeys xs ys := by
  induction ys generalizing xs with
  | nil => exact h
  | cons y t ih =>
    exact ih (insertNew xs y) (mem_insertNew_of_mem xs y p h)

theorem insortStr_length (x : String) (xs : List String) :
    (insortStr x xs).length = xs.length + 1 := by
  induction xs with
  | nil => rfl
  | cons y ys ih =>
    by_cases h : strLe x y
    · simp [insortStr, h]
    · simp [insortStr, h, ih]

theorem sortStrs_length (xs : List String) :
    (sortStrs xs).length = xs.length := by
  induction xs with
  | nil => rfl
  | cons x t ih =>
    simp [sortStrs] at ih ⊢
    rw [insortStr_length, ih]

theorem foldl_preserves {α β : Type} (P : α → Prop) (f : α → β → α)
    (hstep : ∀ a x, P a → P (f a x)) :
    ∀ (l : List β) (a : α), P a → P (l.foldl f a)
  | [], _, h => h
  | x :: t, a, h => foldl_preserves P f hstep t (f a x) (hstep a x h)

/-! ## Claim theorems -/

/-- C8: the translated to_schema run leaves the builder state unchanged
(the source performs no attribute assignment on that path), so calling
it twice returns equal documents with no further mutation in between. -/
theorem toSchemaRun_idempotent_no_mutation (fs : FacadeState) :
    (facadeToSchemaRun fs).2 = fs ∧
      (facadeToSchemaRun ((facadeToSchemaRun fs).2)).1 =
        (facadeToSchemaRun fs).1 :=
  ⟨rfl, rfl⟩

/-- C9: with fewer than three non-empty keys the orchestrator returns no
decision and an empty rejected set, whatever the exclude set is. -/
theorem detect_below_threshold_inert (keys excl : List String)
    (h : (keys.filter (fun k => k ≠ "")).length < 3) :
    detectPatternWithRejects keys excl = (none, []) := by
  unfold detectPatternWithRejects
  by_cases h3 : keys.length < 3
  · rw [if_pos h3]
  · rw [if_neg h3]
    simp only [if_pos h]

/-- C9 witness. -/
theorem detect_below_threshold_inert_witness :
    ((["a", "b", ""].filter (fun k => k ≠ "")).length < 3) ∧
      detectPatternWithRejects ["a", "b", ""] ["^\\d+$"] = (none, []) :=
  ⟨by decide,
    detect_below_threshold_inert ["a", "b", ""] ["^\\d+$"] (by decide)⟩

/-- The orchestrator detector list, evaluated. -/
theorem detectors_eq :
    detectors =
      [UUIDKeyDetector, ISODateTimeDetector, ISOCodeDetector, HexKeyDetector,
       SingleLetterDetector, NumericStringDetector, NegativeNumericDetector] :=
  rfl

/-- C10: an excluded anchored detector pattern is skipped as a candidate
but re-added to the rejected set whenever detection runs at all. -/
theorem detect_excluded_skipped_and_rejected (keys excl : List String)
    (d : KeyPatternDetector) (hd : d ∈ detectors)
    (hp : anchoredOf d ∈ excl)
    (hlen : 3 ≤ (keys.filter (fun k => k ≠ "")).length) :
    anchoredOf d ∈ (detectPatternWithRejects keys excl).2 ∧
      ∀ info, (detectPatternWithRejects keys excl).1 = some info →
        anchoredOf info.detector ≠ anchoredOf d := by
  have hfl : (keys.filter (fun k => k ≠ "")).length ≤ keys.length :=
    List.length_filter_le _ _
  have hkl : ¬ keys.length < 3 := by omega
  constructor
  · unfold detectPatternWithRejects
    rw [if_neg hkl]
    have h4 : ¬ (keys.filter (fun k => k ≠ "")).length < 3 := by omega
    simp only [if_neg h4]
    exact detectLoop_excluded_rejected detectors _ excl none [] d hd hp
  · intro info hinfo heq
    have hni := detect_found_not_excluded keys excl info hinfo
    rw [heq] at hni
    exact hni hp

theorem singleLetter_mem_detectors : SingleLetterDetector ∈ detectors := by
  rw [detectors_eq]
  exact List.mem_cons_of_mem _ (List.mem_cons_of_mem _
    (List.mem_cons_of_mem _ (List.mem_cons_of_mem _ (List.mem_cons_self _ _))))

/-- C10 witness: the single-letter pattern is blacklisted while all of
the keys are single letters; it is still skipped and re-emitted. -/
theorem detect_excluded_skipped_and_rejected_witness :
    (SingleLetterDetector ∈ detectors ∧
        anchoredOf SingleLetterDetector ∈ ["^[a-zA-Z]$"] ∧
        3 ≤ ((["a", "b", "c"].filter (fun k => k ≠ "")).length)) ∧
      (anchoredOf SingleLetterDetector ∈
          (detectPatternWithRejects ["a", "b", "c"] ["^[a-zA-Z]$"]).2 ∧
        ∀ info,
          (detectPatternWithRejects ["a", "b", "c"] ["^[a-zA-Z]$"]).1 =
            some info →
          anchoredOf info.detector ≠ anchoredOf SingleLetterDetector) :=
  ⟨⟨singleLetter_mem_detectors, by decide, by decide⟩,
    detect_excluded_skipped_and_rejected ["a", "b", "c"] ["^[a-zA-Z]$"]
      SingleLetterDetector singleLetter_mem_detectors (by decide) (by decide)⟩

/-- The oneOf branch of CustomString.to_schema emits exactly one format
variant per stored format, sorted, plus a trailing empty variant. -/
theorem csOneOfSchema_get (cs : CSState) (base : List (String × Json))
    (hlen : 1 < (sortStrs cs.formats).length +
      (if cs.hasEmpty then 1 else 0)) :
    jGet (csToSchema.csOneOfSchema cs base) "oneOf" =
      some (Json.arr
        ((sortStrs cs.formats).map (fun f => Json.obj [("format", Json.str f)])
          ++ (if cs.hasEmpty then [Json.obj [("maxLength", Json.int 0)]]
              else []))) := by
  unfold csToSchema.csOneOfSchema
  have hv :
      ((sortStrs cs.formats).map
          (fun f => Json.obj [("format", Json.str f)]) ++
        (if cs.hasEmpty then [Json.obj [("maxLength", Json.int 0)]]
         else [])).length =
      (sortStrs cs.formats).length + (if cs.hasEmpty then 1 else 0) := by
    by_cases he : cs.hasEmpty <;> simp [he]
  rw [if_pos (by rw [hv]; exact hlen)]
  simp [jGet, alookup_aset_self]

/-- When formats must be combined, CustomString.to_schema reaches its
oneOf construction branch. -/
theorem csToSchema_oneOf_branch (cs : CSState)
    (h1 : cs.hasNoFormat = false)
    (h2 : (cs.formats.isEmpty && cs.hasEmpty) = false)
    (h3 : ∀ f, cs.formats = [f] → cs.hasEmpty = true) :
    csToSchema cs =
      csToSchema.csOneOfSchema cs (aset cs.extra "type" (Json.str "string")) := by
  unfold csToSchema
  simp only [h1, h2, Bool.false_eq_true, if_false]
  cases hf : cs.formats with
  | nil => rfl
  | cons a t =>
    cases t with
    | nil =>
      dsimp only
      rw [if_pos (h3 a hf)]
    | cons b t2 => rfl

/-- C7: several formats, or one format with empties, produce a oneOf of
one format variant per distinct format in lexical order, followed by a
maxLength-zero variant when an empty string occurred. -/
theorem csMultiFormatOneOf (cs : CSState)
    (h1 : cs.hasNoFormat = false) (_hnd : cs.formats.Nodup)
    (h3 : 2 ≤ cs.formats.length ∨ (cs.formats ≠ [] ∧ cs.hasEmpty = true)) :
    jGet (csToSchema cs) "oneOf" =
      some (Json.arr
        ((sortStrs cs.formats).map (fun f => Json.obj [("format", Json.str f)])
          ++ (if cs.hasEmpty then [Json.obj [("maxLength", Json.int 0)]]
              else []))) := by
  have hne : cs.formats ≠ [] := by
    rcases h3 with h | h
    · intro h0; rw [h0] at h; simp at h
    · exact h.1
  have hie : cs.formats.isEmpty = false := by
    cases hf : cs.formats with
    | nil => exact absurd hf hne
    | cons a t => simp
  rw [csToSchema_oneOf_branch cs h1 (by rw [hie]; rfl)
    (fun f hf => by
      rcases h3 with h | h
      · rw [hf] at h; simp at h
      · exact h.2)]
  refine csOneOfSchema_get cs _ ?_
  rw [sortStrs_length]
  rcases h3 with h | h
  · omega
  · rw [h.2]
    have : 1 ≤ cs.formats.length := by
      cases hf : cs.formats with
      | nil => exact absurd hf hne
      | cons a t => simp
    simp only [if_true]
    omega

/-- C7 witness: an email and an empty string at one path. -/
theorem csMultiFormatOneOf_witness :
    ((csAddObject (csAddObject freshCS "a@b.com") "").hasNoFormat = false ∧
        (csAddObject (csAddObject freshCS "a@b.com") "").formats.Nodup ∧
        ((csAddObject (csAddObject freshCS "a@b.com") "").formats ≠ [] ∧
          (csAddObject (csAddObject freshCS "a@b.com") "").hasEmpty = true)) ∧
      jGet (csToSchema (csAddObject (csAddObject freshCS "a@b.com") ""))
          "oneOf" =
        some (Json.arr
          [Json.obj [("format", Json.str "email")],
           Json.obj [("maxLength", Json.int 0)]]) :=
  ⟨⟨rfl, by decide, by decide, rfl⟩,
    csMultiFormatOneOf (csAddObject (csAddObject freshCS "a@b.com") "")
      rfl (by decide) (Or.inr ⟨by decide, rfl⟩)⟩

/-- C6 amended: once an unformatted non-empty string has been seen, the
string strategy drops its own format key. -/
theorem csNoFormatDropsOwnFormat (cs : CSState)
    (h : cs.hasNoFormat = true) :
    jGet (csToSchema cs) "format" = none := by
  unfold csToSchema
  rw [h]
  simp [jGet, alookup_aerase_self]

/-- C6 amended witness: an email then an unformatted string. -/
theorem csNoFormatDropsOwnFormat_witness :
    ((csAddObject (csAddObject freshCS "a@b.com") "plain text").hasNoFormat
        = true) ∧
      jGet (csToSchema
          (csAddObject (csAddObject freshCS "a@b.com") "plain text"))
        "format" = none :=
  ⟨rfl,
    csNoFormatDropsOwnFormat
      (csAddObject (csAddObject freshCS "a@b.com") "plain text") rfl⟩

/-- C6 counterexample: a format-derived oneOf merged via add_schema is
re-emitted verbatim, so the path still carries format information deep
in the node even though a non-empty unformatted string was ingested. -/
theorem mergedFormatSurvivesUnformatted :
    fdDetect "plain text" = none ∧ ("plain text" : String) ≠ "" ∧
      hasKeyDeep ((jGetPath mergedOneOfOut ["properties", "f"]).getD Json.null)
          "format" = true :=
  ⟨by decide, by decide, by decide⟩

/-- C5 counterexample: feeding a self-produced document with
excludePatterns to add_schema re-emits the annotation verbatim, but the
per-path blacklist of the converter stays empty: nothing is folded. -/
theorem excludePatternsNotFolded :
    (facadeAddSchema (freshFacade "on") roundTripDocC).isSome = true ∧
      roundTripState.pa.blacklist = [] ∧
      jGetPath (facadeToSchema roundTripState)
          ["properties", "orders", "excludePatterns"] =
        some (Json.arr [Json.str "^[a-zA-Z]$"]) :=
  ⟨by decide, by decide, by decide⟩

/-- C4: ingestion order is observable: with one string-with-format and
one array sample, the two orders produce anyOf variant lists in
opposite orders, so the documents differ even up to key reordering. -/
theorem ingestOrderChangesSchema : nf orderOutAB ≠ nf orderOutBA := by
  decide

/-- C2 counterexample: on the specification example itself, the
collapsed node does not have the claimed shape: the emitted pattern
string is the backslash-d form and a patternComment key is present. -/
theorem ordersCollapseShapeDiffers :
    ¬ ∃ S : Json, jGetPath ordersExampleOut ["properties", "orders"] =
      some (Json.obj
        [("type", Json.str "object"),
         ("propertyNames", Json.obj [("pattern", Json.str "^[0-9]+$")]),
         ("patternProperties", Json.obj [("^[0-9]+$", S)]),
         ("additionalProperties", Json.bool false)]) := by
  intro hex
  obtain ⟨S, h⟩ := hex
  have h1 : (jGetPath ordersExampleOut ["properties", "orders"]).bind
      (fun n => jGet n "propertyNames") =
      some (Json.obj [("pattern", Json.str "^\\d+$")]) := by decide
  rw [h] at h1
  have h2 : (some (Json.obj
      [("type", Json.str "object"),
       ("propertyNames", Json.obj [("pattern", Json.str "^[0-9]+$")]),
       ("patternProperties", Json.obj [("^[0-9]+$", S)]),
       ("additionalProperties", Json.bool false)]) : Option Json).bind
        (fun n => jGet n "propertyNames") =
      some (Json.obj [("pattern", Json.str "^[0-9]+$")]) := rfl
  rw [h2] at h1
  exact absurd h1 (by decide)

/-! ## Format stripping (claim C1) -/

mutual

theorem strip_no_format : ∀ j : Json, hasKeyDeep (stripFormats j) "format" = false
  | .null => rfl
  | .bool _ => rfl
  | .int _ => rfl
  | .float _ => rfl
  | .str _ => rfl
  | .arr xs => by
    simp only [stripFormats, hasKeyDeep]
    exact strip_no_format_list xs
  | .obj kvs => by
    simp only [stripFormats, hasKeyDeep]
    rw [(strip_no_format_kvs kvs).1, (strip_no_format_kvs kvs).2]
    rfl

theorem strip_no_format_kvs :
    ∀ kvs : List (String × Json),
      alookup (stripKVs kvs) "format" = none ∧
        hasKeyDeepKVs (stripKVs kvs) "format" = false
  | [] => ⟨rfl, rfl⟩
  | (k, v) :: t => by
    by_cases hk : k = "format"
    · simpa [stripKVs, hk] using strip_no_format_kvs t
    · by_cases ho : (k = "oneOf" : Bool) && formatDerivedOneOf v
      · simpa [stripKVs, hk, ho] using strip_no_format_kvs t
      · have ht := strip_no_format_kvs t
        refine ⟨?_, ?_⟩
        · simp only [stripKVs, hk, ho, if_false]
          simpa [alookup, hk] using ht.1
        · simp only [stripKVs, hk, ho, if_false]
          simp [hasKeyDeepKVs, strip_no_format v, ht.2]

theorem strip_no_format_list :
    ∀ xs : List Json, hasKeyDeepList (stripList xs) "format" = false
  | [] => rfl
  | x :: t => by
    simp [stripList, hasKeyDeepList, strip_no_format x, strip_no_format_list t]

end

theorem isFormatVariant_deep (x : Json) (hx : isFormatVariant x = true) :
    hasKeyDeep x "format" = true := by
  unfold isFormatVariant at hx
  split at hx
  · simp [hasKeyDeep, alookup]
  · cases hx

theorem hasKeyDeepKVs_of_lookup (kvs : List (String × Json))
    (k0 k : String) (v : Json) (hl : alookup kvs k0 = some v)
    (hv : hasKeyDeep v k = true) : hasKeyDeepKVs kvs k = true := by
  induction kvs with
  | nil => cases hl
  | cons kv t ih =>
    obtain ⟨k1, v1⟩ := kv
    by_cases h : k1 = k0
    · simp only [alookup, h, if_true, Option.some.injEq] at hl
      subst hl
      simp [hasKeyDeepKVs, hv]
    · simp only [alookup, h, if_false] at hl
      simp [hasKeyDeepKVs, ih hl]

theorem hasKeyDeepList_of_mem (xs : List Json) (x : Json) (k : String)
    (hm : x ∈ xs) (hx : hasKeyDeep x k = true) :
    hasKeyDeepList xs k = true := by
  induction xs with
  | nil => cases hm
  | cons y t ih =>
    rcases List.mem_cons.mp hm with h | h
    · subst h
      simp [hasKeyDeepList, hx]
    · simp [hasKeyDeepList, ih h]

theorem derived_has_format (v : Json) (hd : formatDerivedOneOf v = true) :
    hasKeyDeep v "format" = true := by
  unfold formatDerivedOneOf at hd
  split at hd
  · rename_i vs
    have hany := (Bool.and_eq_true _ _).mp hd
    obtain ⟨x, hm, hx⟩ := List.any_eq_true.mp hany.2
    exact hasKeyDeepList_of_mem vs x "format" hm (isFormatVariant_deep x hx)
  · cases hd

mutual

theorem noDerived_of_noFormat :
    ∀ j : Json, hasKeyDeep j "format" = false → noDerivedDeep j = true
  | .null, _ => rfl
  | .bool _, _ => rfl
  | .int _, _ => rfl
  | .float _, _ => rfl
  | .str _, _ => rfl
  | .arr xs, h => by
    simp only [hasKeyDeep] at h
    simpa [noDerivedDeep] using noDerived_of_noFormat_list xs h
  | .obj kvs, h => by
    simp only [hasKeyDeep, Bool.or_eq_false_iff] at h
    simp only [noDerivedDeep, Bool.and_eq_true]
    constructor
    · cases halo : alookup kvs "oneOf" with
      | none => rfl
      | some v =>
        simp only
        cases hd : formatDerivedOneOf v with
        | false => rfl
        | true =>
          have hv := derived_has_format v hd
          have := hasKeyDeepKVs_of_lookup kvs "oneOf" "format" v halo hv
          rw [this] at h
          cases h.2
    · exact noDerived_of_noFormat_kvs kvs h.2

theorem noDerived_of_noFormat_kvs :
    ∀ kvs : List (String × Json),
      hasKeyDeepKVs kvs "format" = false → noDerivedDeepKVs kvs = true
  | [], _ => rfl
  | (k, v) :: t, h => by
    simp only [hasKeyDeepKVs, Bool.or_eq_false_iff] at h
    simp [noDerivedDeepKVs, noDerived_of_noFormat v h.1,
      noDerived_of_noFormat_kvs t h.2]

theorem noDerived_of_noFormat_list :
    ∀ xs : List Json,
      hasKeyDeepList xs "format" = false → noDerivedDeepList xs = true
  | [], _ => rfl
  | x :: t, h => by
    simp only [hasKeyDeepList, Bool.or_eq_false_iff] at h
    simp [noDerivedDeepList, noDerived_of_noFormat x h.1,
      noDerived_of_noFormat_list t h.2]

end

/-- C1: in format_mode off, to_schema is total by construction and its
output contains no format key anywhere and no format-derived oneOf
list anywhere, for every converter state (hence for every sequence of
ingestion calls). The stripping method itself is modelled from the
spec, since its body is absent from the sources, see stripFormats. -/
theorem offModeStripsAllFormats (st : PAState) :
    hasKeyDeep (facadeToSchema { formatMode := "off", pa := st }) "format"
        = false ∧
      noDerivedDeep (facadeToSchema { formatMode := "off", pa := st })
        = true := by
  have he : facadeToSchema { formatMode := "off", pa := st } =
      stripFormats (toSchemaPA st) := rfl
  rw [he]
  exact ⟨strip_no_format _, noDerived_of_noFormat _ (strip_no_format _)⟩

/-! ## Blacklist persistence (claim C3) -/

theorem alookup_aset_ne {α : Type} (m : List (String × α)) (k1 k : String)
    (v : α) (h : k1 ≠ k) : alookup (aset m k1 v) k = alookup m k := by
  induction m with
  | nil => simp [aset, alookup, h]
  | cons kv t ih =>
    obtain ⟨k2, v2⟩ := kv
    by_cases h2 : k2 = k1
    · subst h2
      simp [aset, alookup, h]
    · simp [aset, alookup, h2, ih]

/-- Merging a rejected set into the blacklist map keeps every existing
member at every path. -/
theorem blacklist_update_keeps (m : List (String × List String))
    (path0 path p : String) (rej : List String)
    (hp : p ∈ (alookup m path).getD []) :
    p ∈ (alookup (aset m path0
        (unionKeys ((alookup m path0).getD []) rej)) path).getD [] := by
  by_cases h : path0 = path
  · subst h
    rw [alookup_aset_self]
    exact mem_unionKeys_left _ _ _ hp
  · rw [alookup_aset_ne _ _ _ _ h]
    exact hp

/-- The collect walk never removes a blacklist member at any path. -/
theorem collect_blacklist_mono :
    ∀ (b : Nat) (st : PAState) (j : Json) (path0 path p : String),
      p ∈ (alookup st.blacklist path).getD [] →
      p ∈ (alookup (collectPseudo b st j path0).blacklist path).getD [] := by
  intro b
  induction b with
  | zero =>
    intro st j path0 path p hp
    simpa [collectPseudo] using hp
  | succ b ih =>
    intro st j path0 path p hp
    have hstep : ∀ (a : PAState) (kv : String × Json),
        p ∈ (alookup a.blacklist path).getD [] →
        p ∈ (alookup (collectPseudo b a kv.2
            (path0 ++ "/" ++ kv.1)).blacklist path).getD [] :=
      fun a kv ha => ih a kv.2 _ path p ha
    cases j with
    | obj kvs =>
      simp only [collectPseudo]
      by_cases h3 : 3 ≤ kvs.length
      · simp only [h3, if_true]
        cases hres : (detectPatternWithRejects (kvs.map (fun kv => kv.1))
            ((alookup st.blacklist path0).getD [])).1 with
        | some pinfo =>
          simp only
          by_cases hre : (detectPatternWithRejects (kvs.map (fun kv => kv.1))
              ((alookup st.blacklist path0).getD [])).2.isEmpty
          · simpa [hre] using hp
          · simp only [hre, if_false]
            exact blacklist_update_keeps st.blacklist path0 path p _ hp
        | none =>
          simp only
          by_cases hre : (detectPatternWithRejects (kvs.map (fun kv => kv.1))
              ((alookup st.blacklist path0).getD [])).2.isEmpty
          · simp only [hre, if_true]
            exact foldl_preserves
              (fun a => p ∈ (alookup a.blacklist path).getD []) _
              (fun a kv ha => ih a kv.2 (path0 ++ "/" ++ kv.1) path p ha)
              kvs _ hp
          · simp only [hre, if_false]
            exact foldl_preserves
              (fun a => p ∈ (alookup a.blacklist path).getD []) _
              (fun a kv ha => ih a kv.2 (path0 ++ "/" ++ kv.1) path p ha)
              kvs _
              (blacklist_update_keeps st.blacklist path0 path p _ hp)
      · simp only [h3, if_false]
        exact foldl_preserves
          (fun a => p ∈ (alookup a.blacklist path).getD []) _
          (fun a kv ha => ih a kv.2 (path0 ++ "/" ++ kv.1) path p ha)
          kvs _ hp
    | arr xs =>
      simp only [collectPseudo]
      exact foldl_preserves
        (fun a => p ∈ (alookup a.blacklist path).getD []) _
        (fun a q ha => ih a q.2 (path0 ++ "/" ++ toString q.1) path p ha)
        xs.enum _ hp
    | null => simpa [collectPseudo] using hp
    | bool v => simpa [collectPseudo] using hp
    | int v => simpa [collectPseudo] using hp
    | float v => simpa [collectPseudo] using hp
    | str v => simpa [collectPseudo] using hp

/-- add_object never removes a blacklist member at any path. -/
theorem addObjectPA_blacklist_mono (st : PAState) (j : Json)
    (path p : String) (hp : p ∈ (alookup st.blacklist path).getD []) :
    p ∈ (alookup (addObjectPA st j).blacklist path).getD [] := by
  unfold addObjectPA
  exact collect_blacklist_mono 1001 st j "#" path p hp

/-- C3: once a pattern is in the blacklist of a path, any number of
later add_object calls keeps it there, and at any state reached that
way a detection at that path (the converter always passes the path
blacklist as the exclude set, both while collecting and inside
to_schema) never selects the blacklisted pattern. -/
theorem blacklistPersistsAndBlocks (st : PAState) (vs : List Json)
    (path p : String)
    (hp : p ∈ (alookup st.blacklist path).getD []) :
    p ∈ (alookup (vs.foldl addObjectPA st).blacklist path).getD [] ∧
      ∀ keys info,
        (detectPatternWithRejects keys
            ((alookup (vs.foldl addObjectPA st).blacklist path).getD [])).1 =
          some info →
        anchoredOf info.detector ≠ p := by
  have h1 : p ∈ (alookup (vs.foldl addObjectPA st).blacklist path).getD [] :=
    foldl_preserves (fun a => p ∈ (alookup a.blacklist path).getD [])
      addObjectPA (fun a x ha => addObjectPA_blacklist_mono a x path p ha)
      vs st hp
  refine ⟨h1, ?_⟩
  intro keys info hinfo heq
  have hni := detect_found_not_excluded keys _ info hinfo
  rw [heq] at hni
  exact hni h1

/-- C3 witness: all-UUID keys, then a merge with one non-UUID key,
then the UUID-only sample again: the UUID pattern stays blacklisted at
the root path and can never be selected there again. -/
theorem blacklistPersistsAndBlocks_witness :
    (anchoredOf UUIDKeyDetector ∈
        (alookup uuidSessionState.blacklist "#").getD []) ∧
      (anchoredOf UUIDKeyDetector ∈
          (alookup ([uuidSample].foldl addObjectPA
            uuidSessionState).blacklist "#").getD [] ∧
        ∀ keys info,
          (detectPatternWithRejects keys
              ((alookup ([uuidSample].foldl addObjectPA
                uuidSessionState).blacklist "#").getD [])).1 = some info →
          anchoredOf info.detector ≠ anchoredOf UUIDKeyDetector) :=
  ⟨by decide,
    blacklistPersistsAndBlocks uuidSessionState [uuidSample] "#"
      (anchoredOf UUIDKeyDetector) (by decide)⟩

/-! ## Annotation round-trip without folding (claim C5) -/

set_option maxHeartbeats 4000000 in
/-- C5 (amended): add_schema routes the document to the inherited base
builder only and never touches the collect state, so excludePatterns is
NOT folded into the path blacklist (the pattern-aware object strategy
that would do so is not registered); instead both annotation keywords
survive as opaque extra keywords and are re-emitted verbatim by
to_schema. First part: add_schema leaves blacklist, pseudo-array record
and key record of any state unchanged. Second part: on the
self-produced document family with any comment text, the resulting
state has an empty blacklist and no recorded pseudo-arrays, yet
to_schema re-emits patternComment and excludePatterns unchanged. -/
theorem annotationsReEmittedNotFolded :
    (∀ (st : PAState) (j : Json) (st2 : PAState),
        addSchemaPA st j = some st2 →
        st2.blacklist = st.blacklist ∧ st2.pseudoArrays = st.pseudoArrays ∧
          st2.pathKeys = st.pathKeys) ∧
      ∀ (c : String) (fs : FacadeState),
        facadeAddSchema (freshFacade "on")
            (roundTripDoc "orders" "\\d+" c ["^[a-zA-Z]$"]
              (Json.obj [("type", Json.str "integer")])) = some fs →
        fs.pa.blacklist = [] ∧ fs.pa.pseudoArrays = [] ∧
          jGetPath (facadeToSchema fs)
              ["properties", "orders", "patternComment"] =
            some (Json.str c) ∧
          jGetPath (facadeToSchema fs)
              ["properties", "orders", "excludePatterns"] =
            some (Json.arr [Json.str "^[a-zA-Z]$"]) := by
  constructor
  · intro st j st2 h
    simp only [addSchemaPA, Option.map_eq_some'] at h
    obtain ⟨r, _, h2⟩ := h
    subst h2
    exact ⟨rfl, rfl, rfl⟩
  · intro c fs h
    have hfs : (facadeAddSchema (freshFacade "on")
        (roundTripDoc "orders" "\\d+" c ["^[a-zA-Z]$"]
          (Json.obj [("type", Json.str "integer")]))).getD
        (freshFacade "on") = fs := by rw [h]; rfl
    subst hfs
    refine ⟨rfl, rfl, rfl, rfl⟩

/-- C5 witness: the concrete self-produced orders document: add_schema
keeps the fresh blacklist and to_schema re-emits excludePatterns. -/
theorem annotationsReEmittedNotFolded_witness :
    roundTripState.pa.blacklist = freshPA.blacklist ∧
      jGetPath (facadeToSchema roundTripState)
          ["properties", "orders", "excludePatterns"] =
        some (Json.arr [Json.str "^[a-zA-Z]$"]) :=
  ⟨(annotationsReEmittedNotFolded.1 freshPA roundTripDocC
      roundTripState.pa (by rfl)).1,
    (annotationsReEmittedNotFolded.2 "Positive integers as strings"
      roundTripState (by rfl)).2.2.2⟩


/-! ## Digit-key facts for the detectors (claim C2) -/

theorem digit_toNat {c : Char} (h : isAsciiDigit c = true) :
    48 ≤ c.toNat ∧ c.toNat ≤ 57 := by
  simpa [isAsciiDigit] using h

theorem digit_ne {c : Char} (h : isAsciiDigit c = true) (c0 : Char)
    (h0 : c0.toNat < 48 ∨ 57 < c0.toNat) : c ≠ c0 := by
  intro he
  obtain ⟨h1, h2⟩ := digit_toNat h
  subst he
  omega

theorem digit_not_upper {c : Char} (h : isAsciiDigit c = true) :
    isAsciiUpper c = false := by
  obtain ⟨h1, h2⟩ := digit_toNat h
  simp [isAsciiUpper]
  omega

theorem digit_not_lower {c : Char} (h : isAsciiDigit c = true) :
    isAsciiLower c = false := by
  obtain ⟨h1, h2⟩ := digit_toNat h
  simp [isAsciiLower]
  omega

theorem digit_not_alpha {c : Char} (h : isAsciiDigit c = true) :
    isAsciiAlpha c = false := by
  simp [isAsciiAlpha, digit_not_upper h, digit_not_lower h]

/-- Consuming hex digits (or digits) from an all-digit tail leaves an
all-digit tail. -/
theorem eatN_digits (p : Char → Bool) :
    ∀ (n : Nat) (cs cs2 : List Char), cs.all isAsciiDigit = true →
      eatN p n cs = some cs2 → cs2.all isAsciiDigit = true := by
  intro n
  induction n with
  | zero =>
    intro cs cs2 h he
    unfold eatN at he
    cases he
    exact h
  | succ n ih =>
    intro cs cs2 h he
    cases cs with
    | nil => cases he
    | cons c t =>
      unfold eatN at he
      rw [List.all_cons, Bool.and_eq_true] at h
      by_cases hp : p c = true
      · rw [if_pos hp] at he
        exact ih t cs2 h.2 he
      · rw [if_neg hp] at he
        cases he

theorem eatCh_of_digits (c0 : Char) (h0 : c0.toNat < 48 ∨ 57 < c0.toNat)
    (cs : List Char) (h : cs.all isAsciiDigit = true) : eatCh c0 cs = none := by
  cases cs with
  | nil => rfl
  | cons c t =>
    rw [List.all_cons, Bool.and_eq_true] at h
    have hc : isAsciiDigit c = true := h.1
    show (if c = c0 then some t else none) = none
    rw [if_neg (digit_ne hc c0 h0)]

theorem uuidCore_digits (cs : List Char) (h : cs.all isAsciiDigit = true) :
    uuidCore cs = false := by
  unfold uuidCore
  cases he : eatN isHexDig 8 cs with
  | none => simp [he]
  | some cs2 =>
    have h2 := eatN_digits isHexDig 8 cs cs2 h he
    have h3 : eatCh '-' cs2 = none := eatCh_of_digits '-' (by decide) cs2 h2
    simp [he, h3]

theorem isoDTCore_digits (cs : List Char) (h : cs.all isAsciiDigit = true) :
    isoDTCore cs = false := by
  unfold isoDTCore
  cases he : eatN isAsciiDigit 4 cs with
  | none => simp [he]
  | some cs2 =>
    have h2 := eatN_digits isAsciiDigit 4 cs cs2 h he
    have h3 : eatCh '-' cs2 = none := eatCh_of_digits '-' (by decide) cs2 h2
    simp [he, h3]

theorem isoCodeCore_digits (cs : List Char) (h : cs.all isAsciiDigit = true) :
    isoCodeCore cs = false := by
  unfold isoCodeCore
  rcases cs with _ | ⟨a, _ | ⟨b, _ | ⟨c, _ | ⟨d, _ | ⟨e, _ | ⟨f, t⟩⟩⟩⟩⟩⟩
  · rfl
  · rfl
  · have ha : isAsciiDigit a = true := by simp_all
    simp [digit_not_upper ha]
  · have ha : isAsciiDigit a = true := by simp_all
    simp [digit_not_upper ha]
  · rfl
  · have hc : isAsciiDigit c = true := by simp_all
    simp [digit_ne hc '-' (by decide)]
  · rfl

theorem hexCore_digits (cs : List Char) (h : cs.all isAsciiDigit = true) :
    hexCore cs = false := by
  rcases cs with _ | ⟨c0, _ | ⟨x, rest⟩⟩
  · rfl
  · rfl
  · have hx : isAsciiDigit x = true := by simp_all
    simp [hexCore, digit_ne hx 'x' (by decide), digit_ne hx 'X' (by decide)]

theorem singleLetterCore_digits (cs : List Char)
    (h : cs.all isAsciiDigit = true) : singleLetterCore cs = false := by
  rcases cs with _ | ⟨c, _ | ⟨d, t⟩⟩
  · rfl
  · have hc : isAsciiDigit c = true := by simp_all
    simp [singleLetterCore, digit_not_alpha hc]
  · rfl

theorem numericCore_digits (cs : List Char) (hne : cs ≠ [])
    (h : cs.all isAsciiDigit = true) : numericCore cs = true := by
  unfold numericCore
  cases cs with
  | nil => exact absurd rfl hne
  | cons c t => simp_all

theorem negNumericCore_digits (cs : List Char) (hne : cs ≠ [])
    (h : cs.all isAsciiDigit = true) : negNumericCore cs = true := by
  cases cs with
  | nil => exact absurd rfl hne
  | cons c t =>
    have hc : isAsciiDigit c = true := by simp_all
    show (if c = '-' then !t.isEmpty && t.all isAsciiDigit
      else isAsciiDigit c && t.all isAsciiDigit) = true
    rw [if_neg (digit_ne hc '-' (by decide))]
    simp_all

/-- The parts of str.isdigit. -/
theorem pyIsDigit_parts {k : String} (h : pyIsDigit k = true) :
    k.data ≠ [] ∧ k.data.all isAsciiDigit = true := by
  unfold pyIsDigit at h
  constructor
  · intro he
    rw [he] at h
    simp at h
  · simp_all

theorem pyIsDigit_ne_empty {k : String} (h : pyIsDigit k = true) :
    k ≠ "" := by
  intro he
  subst he
  simp [pyIsDigit] at h

/-- For an all-digit key the trailing-newline allowance never fires. -/
theorem pyMatch_digits (core : List Char → Bool) (k : String)
    (h : pyIsDigit k = true) : pyMatch core k = core k.data := by
  obtain ⟨hne, hall⟩ := pyIsDigit_parts h
  unfold pyMatch
  have hlast : ¬ k.data.getLast? = some (Char.ofNat 10) := by
    intro hl
    have hmem : Char.ofNat 10 ∈ k.data := by
      have := List.getLast?_eq_getLast k.data hne
      rw [hl] at this
      have h2 : k.data.getLast hne ∈ k.data := List.getLast_mem hne
      have h3 : Char.ofNat 10 = k.data.getLast hne := by
        injection this
      rw [h3]
      exact h2
    have := List.all_eq_true.mp hall _ hmem
    simp [isAsciiDigit] at this
  rw [if_neg hlast]
  simp

/-! ## Detector results on all-digit key sets -/

theorem uuid_key_digit {k : String} (h : pyIsDigit k = true) :
    UUIDKeyDetector.matchesKey k = false := by
  show pyMatch uuidCore k = false
  rw [pyMatch_digits _ _ h, uuidCore_digits _ (pyIsDigit_parts h).2]

theorem isoDT_key_digit {k : String} (h : pyIsDigit k = true) :
    ISODateTimeDetector.matchesKey k = false := by
  show pyMatch isoDTCore k = false
  rw [pyMatch_digits _ _ h, isoDTCore_digits _ (pyIsDigit_parts h).2]

theorem isoCode_key_digit {k : String} (h : pyIsDigit k = true) :
    ISOCodeDetector.matchesKey k = false := by
  show pyMatch isoCodeCore k = false
  rw [pyMatch_digits _ _ h, isoCodeCore_digits _ (pyIsDigit_parts h).2]

theorem hex_key_digit {k : String} (h : pyIsDigit k = true) :
    HexKeyDetector.matchesKey k = false := by
  show pyMatch hexCore k = false
  rw [pyMatch_digits _ _ h, hexCore_digits _ (pyIsDigit_parts h).2]

theorem single_key_digit {k : String} (h : pyIsDigit k = true) :
    SingleLetterDetector.matchesKey k = false := by
  show pyMatch singleLetterCore k = false
  rw [pyMatch_digits _ _ h, singleLetterCore_digits _ (pyIsDigit_parts h).2]

theorem numeric_key_digit {k : String} (h : pyIsDigit k = true) :
    NumericStringDetector.matchesKey k = true := by
  show pyMatch numericCore k = true
  rw [pyMatch_digits _ _ h,
    numericCore_digits _ (pyIsDigit_parts h).1 (pyIsDigit_parts h).2]

theorem negNumeric_key_digit {k : String} (h : pyIsDigit k = true) :
    NegativeNumericDetector.matchesKey k = true := by
  show pyMatch negNumericCore k = true
  rw [pyMatch_digits _ _ h,
    negNumericCore_digits _ (pyIsDigit_parts h).1 (pyIsDigit_parts h).2]

theorem all_matches_false (d : KeyPatternDetector) (ne : List String)
    (hk : ∀ k ∈ ne, d.matchesKey k = false) (hne : ne ≠ []) :
    ne.all (fun k => d.matchesKey k) = false := by
  cases ne with
  | nil => exact absurd rfl hne
  | cons k t =>
    rw [List.all_cons, hk k (List.mem_cons_self k t)]
    rfl

theorem digit_not_startsDash {k : String} (h : pyIsDigit k = true) :
    startsWithChar k '-' = false := by
  obtain ⟨hne, hall⟩ := pyIsDigit_parts h
  unfold startsWithChar
  cases hd : k.data with
  | nil => rfl
  | cons c t =>
    rw [hd] at hall
    rw [List.all_cons, Bool.and_eq_true] at hall
    simp [digit_ne hall.1 '-' (by decide)]

/-- On an all-digit nonempty key set the signed-integer detector defers
to the positive-integer one. -/
theorem negSC_digits (keys : List String) (hne : keys ≠ [])
    (hk : ∀ k ∈ keys, pyIsDigit k = true) :
    NegativeNumericDetector.shouldConvert keys = false := by
  show negNumericShouldConvert keys = false
  unfold negNumericShouldConvert
  have hneg : keys.any (fun k => startsWithChar k '-') = false := by
    rw [List.any_eq_false]
    intro k hkm
    simp [digit_not_startsDash (hk k hkm)]
  have hpos : keys.any (fun k => !startsWithChar k '-' && pyIsDigit k) = true := by
    cases keys with
    | nil => exact absurd rfl hne
    | cons k t =>
      rw [List.any_cons]
      have h1 := hk k (List.mem_cons_self k t)
      rw [digit_not_startsDash h1, h1]
      rfl
  rw [hneg, hpos]
  rfl

/-- The anchored patterns rejected on an all-digit key set: every
detector above the numeric one in priority order. -/
def rejectedNonNumeric : List String :=
  [anchoredOf UUIDKeyDetector, anchoredOf ISODateTimeDetector,
   anchoredOf ISOCodeDetector, anchoredOf HexKeyDetector,
   anchoredOf SingleLetterDetector]

/-- Detection on at least three distinct all-digit keys: the five
higher-priority detectors are rejected (whether excluded already or
failing a key), the signed-integer detector defers, and the
positive-integer detector is selected. -/
theorem detect_digit_keys (keys : List String) (excl : List String)
    (hk : ∀ k ∈ keys, pyIsDigit k = true) (h3 : 3 ≤ keys.length)
    (hexcl : excl = [] ∨ excl = rejectedNonNumeric) :
    detectPatternWithRejects keys excl =
      (some (mkPatternInfo NumericStringDetector), rejectedNonNumeric) := by
  have hne : keys ≠ [] := by
    intro he
    rw [he] at h3
    simp at h3
  have hl3 : ¬ keys.length < 3 := by omega
  have hfil : keys.filter (fun k => k ≠ "") = keys :=
    List.filter_eq_self.mpr (fun k hkm => by
      simp [pyIsDigit_ne_empty (hk k hkm)])
  have hU : keys.all (fun k => UUIDKeyDetector.matchesKey k) = false :=
    all_matches_false _ _ (fun k hkm => uuid_key_digit (hk k hkm)) hne
  have hI : keys.all (fun k => ISODateTimeDetector.matchesKey k) = false :=
    all_matches_false _ _ (fun k hkm => isoDT_key_digit (hk k hkm)) hne
  have hC : keys.all (fun k => ISOCodeDetector.matchesKey k) = false :=
    all_matches_false _ _ (fun k hkm => isoCode_key_digit (hk k hkm)) hne
  have hH : keys.all (fun k => HexKeyDetector.matchesKey k) = false :=
    all_matches_false _ _ (fun k hkm => hex_key_digit (hk k hkm)) hne
  have hS : keys.all (fun k => SingleLetterDetector.matchesKey k) = false :=
    all_matches_false _ _ (fun k hkm => single_key_digit (hk k hkm)) hne
  have hNum : keys.all (fun k => NumericStringDetector.matchesKey k) = true :=
    List.all_eq_true.mpr (fun k hkm => numeric_key_digit (hk k hkm))
  have hNeg : keys.all (fun k => NegativeNumericDetector.matchesKey k) = true :=
    List.all_eq_true.mpr (fun k hkm => negNumeric_key_digit (hk k hkm))
  have hSC := negSC_digits keys hne hk
  unfold detectPatternWithRejects
  rw [if_neg hl3, hfil, if_neg hl3, detectors_eq]
  rcases hexcl with he | he <;> subst he
  · simp only [detectLoop, hU, hI, hC, hH, hS, hNum, hNeg, hSC]
    rw [show NumericStringDetector.shouldConvert keys = true from rfl]
    rfl
  · simp only [detectLoop, hU, hI, hC, hH, hS, hNum, hNeg, hSC]
    rw [show NumericStringDetector.shouldConvert keys = true from rfl]
    rfl

/-! ## Identity and congruence of the rewriting walk -/

theorem aset_lookup_self {α : Type} (m : List (String × α)) (k : String)
    (v : α) (h : alookup m k = some v) : aset m k v = m := by
  induction m with
  | nil => cases h
  | cons kv t ih =>
    obtain ⟨k1, v1⟩ := kv
    unfold alookup at h
    unfold aset
    by_cases hk : k1 = k
    · rw [if_pos hk] at h
      injection h with h2
      subst h2
      rw [if_pos hk]
    · rw [if_neg hk] at h
      rw [if_neg hk, ih h]

theorem jSet_self (node : Json) (k : String) (v : Json)
    (h : jGet node k = some v) : jSet node k v = node := by
  cases node with
  | obj kvs =>
    have h2 : alookup kvs k = some v := h
    show Json.obj (aset kvs k v) = Json.obj kvs
    rw [aset_lookup_self kvs k v h2]
  | null => rfl
  | bool b => rfl
  | int n => rfl
  | float q => rfl
  | str s => rfl
  | arr xs => rfl

theorem map_eta {α β : Type} (l : List (α × β)) :
    l.map (fun kv => (kv.1, kv.2)) = l := by
  induction l with
  | nil => rfl
  | cons kv t ih => rw [List.map_cons, ih]

theorem prop_match_id (node : Json) (key : String) :
    (match jGet node key with
     | some (.obj pkvs) =>
       jSet node key (Json.obj (pkvs.map (fun kv => (kv.1, kv.2))))
     | _ => node) = node := by
  cases hp : jGet node key with
  | none => rfl
  | some w =>
    cases w with
    | obj pkvs =>
      show jSet node key (Json.obj (pkvs.map (fun kv => (kv.1, kv.2)))) = node
      rw [map_eta]
      exact jSet_self node key (Json.obj pkvs) hp
    | null => rfl
    | bool b => rfl
    | int n => rfl
    | float q => rfl
    | str s => rfl
    | arr xs => rfl

theorem items_match_id (node : Json) :
    (match jGet node "items" with
     | some (.obj ikvs) => jSet node "items" (Json.obj ikvs)
     | some (.arr its) =>
       jSet node "items" (Json.arr ((its.enum).map (fun p => p.2)))
     | _ => node) = node := by
  cases hi : jGet node "items" with
  | none => rfl
  | some w =>
    cases w with
    | obj ikvs =>
      show jSet node "items" (Json.obj ikvs) = node
      exact jSet_self node "items" (Json.obj ikvs) hi
    | arr its =>
      show jSet node "items" (Json.arr ((its.enum).map (fun p => p.2))) = node
      rw [List.enum_map_snd]
      exact jSet_self node "items" (Json.arr its) hi
    | null => rfl
    | bool b => rfl
    | int n => rfl
    | float q => rfl
    | str s => rfl

theorem comb_step_id (node : Json) (c : String) :
    (match jGet node c with
     | some (.arr vs) => jSet node c (Json.arr (vs.map (fun v => v)))
     | _ => node) = node := by
  cases hg : jGet node c with
  | none => rfl
  | some w =>
    cases w with
    | arr vs =>
      show jSet node c (Json.arr (vs.map (fun v => v))) = node
      rw [List.map_id_fun']
      exact jSet_self node c (Json.arr vs) hg
    | null => rfl
    | bool b => rfl
    | int n => rfl
    | float q => rfl
    | str s => rfl
    | obj kvs => rfl

theorem convertChild_id (go : Json → String → Json)
    (h : ∀ j p, go j p = j) (node : Json) (path : String) :
    convertChild go node path = node := by
  unfold convertChild
  simp only [h]
  have hinit :
      (if jGet node "type" = some (.str "object") then
        match jGet
            (match jGet node "properties" with
             | some (.obj pkvs) =>
               jSet node "properties"
                 (Json.obj (pkvs.map (fun kv => (kv.1, kv.2))))
             | _ => node) "patternProperties" with
        | some (.obj qkvs) =>
          jSet
            (match jGet node "properties" with
             | some (.obj pkvs) =>
               jSet node "properties"
                 (Json.obj (pkvs.map (fun kv => (kv.1, kv.2))))
             | _ => node) "patternProperties"
            (Json.obj (qkvs.map (fun kv => (kv.1, kv.2))))
        | _ =>
          match jGet node "properties" with
          | some (.obj pkvs) =>
            jSet node "properties"
              (Json.obj (pkvs.map (fun kv => (kv.1, kv.2))))
          | _ => node
      else if jGet node "type" = some (.str "array") then
        match jGet node "items" with
        | some (.obj ikvs) => jSet node "items" (Json.obj ikvs)
        | some (.arr its) =>
          jSet node "items" (Json.arr ((its.enum).map (fun p => p.2)))
        | _ => node
      else node) = node := by
    by_cases ho : jGet node "type" = some (.str "object")
    · rw [if_pos ho, prop_match_id node "properties"]
      exact prop_match_id node "patternProperties"
    · rw [if_neg ho]
      by_cases ha : jGet node "type" = some (.str "array")
      · rw [if_pos ha]
        exact items_match_id node
      · rw [if_neg ha]
  rw [hinit]
  show List.foldl _ node ["oneOf", "anyOf", "allOf"] = node
  simp only [List.foldl]
  rw [comb_step_id node "oneOf", comb_step_id node "anyOf",
    comb_step_id node "allOf"]

theorem convertChild_congr (go1 go2 : Json → String → Json)
    (h : ∀ j p, go1 j p = go2 j p) (node : Json) (path : String) :
    convertChild go1 node path = convertChild go2 node path := by
  unfold convertChild
  simp only [h]

/-- Beyond the depth guard the walk is the identity at any fuel. -/
theorem convertNode_deep (f : Nat) (st : PAState) (node : Json)
    (path : String) (depth : Nat) (h : 1000 < depth) :
    convertNode f st node path depth = node := by
  cases f with
  | zero => rfl
  | succ g =>
    unfold convertNode
    rw [if_pos h]

/-- With no recorded pseudo-arrays the walk is the identity. -/
theorem convertNode_id : ∀ (f : Nat) (st : PAState) (node : Json)
    (path : String) (depth : Nat), st.pseudoArrays = [] →
    convertNode f st node path depth = node := by
  intro f
  induction f with
  | zero => intro st node path depth h; rfl
  | succ g ih =>
    intro st node path depth h
    unfold convertNode
    by_cases hd : 1000 < depth
    · rw [if_pos hd]
    · rw [if_neg hd, h]
      show convertChild (fun j p => convertNode g st j p (depth + 1)) node
          path = node
      exact convertChild_id _ (fun j p => ih st j p (depth + 1) h) node path

/-! ## Size bounds for the recorded pseudo-array objects -/

theorem jsize_pos (j : Json) : 1 ≤ jsize j := by
  cases j <;> simp [jsize]

theorem jsizeList_append (a b : List Json) :
    jsizeList (a ++ b) = jsizeList a + jsizeList b := by
  induction a with
  | nil => simp [jsizeList]
  | cons x t ih =>
    simp [jsizeList, ih]
    omega

theorem jsizeList_map_snd (kvs : List (String × Json)) :
    jsizeList (kvs.map (fun kv => kv.2)) = jsizeKVs kvs := by
  induction kvs with
  | nil => rfl
  | cons kv t ih =>
    simp [jsizeList, jsizeKVs, ih]

theorem objValues_size (o : Json) : jsizeList (objValues o) + 1 ≤ jsize o := by
  cases o with
  | obj kvs =>
    show jsizeList (kvs.map (fun kv => kv.2)) + 1 ≤ 1 + jsizeKVs kvs
    rw [jsizeList_map_snd]
    omega
  | null => simp [objValues, jsizeList, jsize]
  | bool b => simp [objValues, jsizeList, jsize]
  | int n => simp [objValues, jsizeList, jsize]
  | float q => simp [objValues, jsizeList, jsize]
  | str s => simp [objValues, jsizeList, jsize]
  | arr xs =>
    have := jsize_pos (Json.arr xs)
    simp [objValues, jsizeList]
    omega

theorem flatMap_objValues_size (objs : List Json) (hne : objs ≠ []) :
    jsizeList (objs.flatMap objValues) + 2 ≤ jsizeList objs := by
  induction objs with
  | nil => exact absurd rfl hne
  | cons o rest ih =>
    rw [List.flatMap_cons, jsizeList_append]
    have h1 := objValues_size o
    cases rest with
    | nil =>
      simp only [List.flatMap_nil, jsizeList] at *
      omega
    | cons o2 r2 =>
      have h2 := ih (by simp)
      simp only [jsizeList] at h2 ⊢
      omega

theorem alookup_le_sum (m : List (String × List Json)) (k : String)
    (objs : List Json) (h : alookup m k = some objs) :
    jsizeList objs ≤ (m.map (fun e => jsizeList e.2)).sum := by
  induction m with
  | nil => cases h
  | cons kv t ih =>
    obtain ⟨k1, v1⟩ := kv
    unfold alookup at h
    by_cases hk : k1 = k
    · rw [if_pos hk] at h
      injection h with h2
      subst h2
      simp
    · rw [if_neg hk] at h
      have := ih h
      simp
      omega

theorem sum_aset_record (m : List (String × List Json)) (k : String)
    (j : Json) :
    ((aset m k (((alookup m k).getD []) ++ [j])).map
        (fun e => jsizeList e.2)).sum =
      (m.map (fun e => jsizeList e.2)).sum + (1 + jsize j) := by
  induction m with
  | nil =>
    simp [aset, alookup, jsizeList, jsizeList_append]
  | cons kv t ih =>
    obtain ⟨k1, v1⟩ := kv
    by_cases hk : k1 = k
    · subst hk
      simp [aset, alookup, jsizeList_append, jsizeList]
      omega
    · simp [aset, alookup, hk, ih]
      omega

/-- The collect walk grows the recorded size by at most the value size
plus one. -/
theorem collect_pmeasure :
    ∀ (b : Nat) (st : PAState) (j : Json) (path : String),
      pmeasure (collectPseudo b st j path) ≤ pmeasure st + (jsize j + 1) := by
  intro b
  induction b with
  | zero =>
    intro st j path
    simp [collectPseudo]
  | succ b ih =>
    intro st j path
    have hfoldKVs : ∀ (kvs : List (String × Json)) (st0 : PAState)
        (path0 : String),
        pmeasure (kvs.foldl
          (fun acc kv => collectPseudo b acc kv.2 (path0 ++ "/" ++ kv.1))
          st0) ≤ pmeasure st0 + jsizeKVs kvs := by
      intro kvs
      induction kvs with
      | nil => intro st0 path0; simp [jsizeKVs]
      | cons kv t ihk =>
        intro st0 path0
        rw [List.foldl_cons]
        have h1 := ihk (collectPseudo b st0 kv.2 (path0 ++ "/" ++ kv.1)) path0
        have h2 := ih st0 kv.2 (path0 ++ "/" ++ kv.1)
        simp [jsizeKVs]
        omega
    have hfoldArr : ∀ (l : List (Nat × Json)) (st0 : PAState)
        (path0 : String),
        pmeasure (l.foldl
          (fun acc p => collectPseudo b acc p.2 (path0 ++ "/" ++ toString p.1))
          st0) ≤ pmeasure st0 + jsizeList (l.map (fun p => p.2)) := by
      intro l
      induction l with
      | nil => intro st0 path0; simp [jsizeList]
      | cons p t ihl =>
        intro st0 path0
        rw [List.foldl_cons]
        have h1 := ihl (collectPseudo b st0 p.2 (path0 ++ "/" ++ toString p.1))
          path0
        have h2 := ih st0 p.2 (path0 ++ "/" ++ toString p.1)
        simp [jsizeList]
        omega
    cases j with
    | obj kvs =>
      simp only [collectPseudo]
      by_cases h3 : 3 ≤ kvs.length
      · rw [if_pos h3]
        cases hres : (detectPatternWithRejects (kvs.map (fun kv => kv.1))
            ((alookup st.blacklist path).getD [])).1 with
        | some pinfo =>
          simp only
          have hrec : pmeasure
              { st with
                pathKeys := aset st.pathKeys path
                  (unionKeys ((alookup st.pathKeys path).getD [])
                    (kvs.map (fun kv => kv.1))),
                pseudoArrays := aset st.pseudoArrays path
                  (((alookup st.pseudoArrays path).getD []) ++
                    [Json.obj kvs]) } =
              pmeasure st + (1 + jsize (Json.obj kvs)) := by
            show ((aset st.pseudoArrays path _).map
                (fun e => jsizeList e.2)).sum = _
            rw [sum_aset_record]
            rfl
          by_cases hre : (detectPatternWithRejects (kvs.map (fun kv => kv.1))
              ((alookup st.blacklist path).getD [])).2.isEmpty
          · rw [if_pos hre]
            rw [hrec]
            omega
          · rw [if_neg hre]
            show ((aset st.pseudoArrays path _).map
                (fun e => jsizeList e.2)).sum ≤ _
            rw [sum_aset_record]
            have hpm0 : (st.pseudoArrays.map (fun e => jsizeList e.2)).sum =
              pmeasure st := rfl
            rw [hpm0]
            omega
        | none =>
          simp only
          by_cases hre : (detectPatternWithRejects (kvs.map (fun kv => kv.1))
              ((alookup st.blacklist path).getD [])).2.isEmpty
          · rw [if_pos hre]
            have := hfoldKVs kvs
              { st with
                pathKeys := aset st.pathKeys path
                  (unionKeys ((alookup st.pathKeys path).getD [])
                    (kvs.map (fun kv => kv.1))) } path
            have hsz : jsizeKVs kvs + 1 = jsize (Json.obj kvs) := by
              simp [jsize]
              omega
            have hpm : pmeasure
                { st with
                  pathKeys := aset st.pathKeys path
                    (unionKeys ((alookup st.pathKeys path).getD [])
                      (kvs.map (fun kv => kv.1))) } = pmeasure st := rfl
            rw [hpm] at this
            omega
          · rw [if_neg hre]
            have := hfoldKVs kvs
              { st with
                pathKeys := aset st.pathKeys path
                  (unionKeys ((alookup st.pathKeys path).getD [])
                    (kvs.map (fun kv => kv.1))),
                blacklist := aset st.blacklist path
                  (unionKeys ((alookup st.blacklist path).getD [])
                    (detectPatternWithRejects (kvs.map (fun kv => kv.1))
                      ((alookup st.blacklist path).getD [])).2) } path
            have hpm : pmeasure
                { st with
                  pathKeys := aset st.pathKeys path
                    (unionKeys ((alookup st.pathKeys path).getD [])
                      (kvs.map (fun kv => kv.1))),
                  blacklist := aset st.blacklist path
                    (unionKeys ((alookup st.blacklist path).getD [])
                      (detectPatternWithRejects (kvs.map (fun kv => kv.1))
                        ((alookup st.blacklist path).getD [])).2) } =
                pmeasure st := rfl
            rw [hpm] at this
            have hsz : jsizeKVs kvs + 1 = jsize (Json.obj kvs) := by
              simp [jsize]
              omega
            omega
      · rw [if_neg h3]
        have := hfoldKVs kvs
          { st with
            pathKeys := aset st.pathKeys path
              (unionKeys ((alookup st.pathKeys path).getD [])
                (kvs.map (fun kv => kv.1))) } path
        have hpm : pmeasure
            { st with
              pathKeys := aset st.pathKeys path
                (unionKeys ((alookup st.pathKeys path).getD [])
                  (kvs.map (fun kv => kv.1))) } = pmeasure st := rfl
        rw [hpm] at this
        have hsz : jsizeKVs kvs + 1 = jsize (Json.obj kvs) := by
          simp [jsize]
          omega
        omega
    | arr xs =>
      simp only [collectPseudo]
      have := hfoldArr xs.enum st path
      rw [List.enum_map_snd] at this
      have hsz : jsizeList xs + 1 = jsize (Json.arr xs) := by
        simp [jsize]
        omega
      omega
    | null => simp [collectPseudo]
    | bool v => simp [collectPseudo]
    | int v => simp [collectPseudo]
    | float v => simp [collectPseudo]
    | str v => simp [collectPseudo]

theorem addObjectPA_pmeasure (st : PAState) (j : Json) :
    pmeasure (addObjectPA st j) ≤ pmeasure st + (jsize j + 1) := by
  show pmeasure (collectPseudo 1001 st j "#") ≤ _
  exact collect_pmeasure 1001 st j "#"

theorem foldl_addObjectPA_pmeasure (vs : List Json) (st0 : PAState) :
    pmeasure (vs.foldl addObjectPA st0) ≤ pmeasure st0 + jsizeList vs := by
  induction vs generalizing st0 with
  | nil => simp [jsizeList]
  | cons v t ih =>
    rw [List.foldl_cons]
    have h1 := ih (addObjectPA st0 v)
    have h2 := addObjectPA_pmeasure st0 v
    simp [jsizeList]
    omega

/-- The element builder of a recorded path is strictly smaller. -/
theorem inner_pmeasure_lt (st : PAState) (path : String) (o : Json)
    (rest : List Json)
    (h : alookup st.pseudoArrays path = some (o :: rest)) :
    pmeasure (((o :: rest).flatMap objValues).foldl addObjectPA freshPA) + 2 ≤
      pmeasure st := by
  have h1 := foldl_addObjectPA_pmeasure ((o :: rest).flatMap objValues) freshPA
  have h2 := flatMap_objValues_size (o :: rest) (by simp)
  have h3 := alookup_le_sum st.pseudoArrays path (o :: rest) h
  have h4 : pmeasure freshPA = 0 := rfl
  show _ + 2 ≤ pmeasure st
  have h5 : jsizeList (o :: rest) ≤ pmeasure st := h3
  omega

/-! ## Fuel stability of the rewriting walk -/

/-- The element schema built for a detected path, at a given fuel. -/
def elementAt (h : Nat) (stI : PAState) : Json :=
  match h with
  | 0 => builderDoc stI
  | g + 1 => convertNode g stI (builderDoc stI) "#" 0

theorem convertNode_succ_none (f : Nat) (st : PAState) (node : Json)
    (path : String) (depth : Nat) (hdeep : ¬ 1000 < depth)
    (hpa : alookup st.pseudoArrays path = none) :
    convertNode (f + 1) st node path depth =
      convertChild (fun j p => convertNode f st j p (depth + 1)) node path := by
  conv_lhs => unfold convertNode
  rw [if_neg hdeep, hpa]

theorem convertNode_succ_some (f : Nat) (st : PAState) (node : Json)
    (path : String) (depth : Nat) (objs : List Json)
    (hdeep : ¬ 1000 < depth)
    (hpa : alookup st.pseudoArrays path = some objs) :
    convertNode (f + 1) st node path depth =
      (match (detectPatternWithRejects ((alookup st.pathKeys path).getD [])
          ((alookup st.blacklist path).getD [])).1 with
      | some pinfo =>
        pseudoNodeOf pinfo
          (elementAt f ((objs.flatMap objValues).foldl addObjectPA freshPA))
          ((alookup st.blacklist path).getD [])
      | none =>
        convertChild (fun j p => convertNode f st j p (depth + 1)) node path) := by
  conv_lhs => unfold convertNode
  rw [if_neg hdeep, hpa]
  rfl

theorem elementAt_of_empty (h : Nat) (stI : PAState)
    (hI : stI.pseudoArrays = []) : elementAt h stI = builderDoc stI := by
  cases h with
  | zero => rfl
  | succ g => exact convertNode_id g stI (builderDoc stI) "#" 0 hI

/-- Any two sufficiently large fuels compute the same walk: the walk
consumes one unit per level, levels are capped by the depth guard, and
each nested element builder works on a strictly smaller recorded size. -/
theorem convertNode_stable :
    ∀ (P : Nat) (st : PAState), pmeasure st ≤ P →
      ∀ (d : Nat) (node : Json) (path : String) (depth f f' : Nat),
        1001 ≤ depth + d → P * 1002 + d ≤ f → P * 1002 + d ≤ f' →
        convertNode f st node path depth = convertNode f' st node path depth := by
  intro P
  induction P using Nat.strong_induction_on with
  | _ P ihP =>
    intro st hst d
    induction d with
    | zero =>
      intro node path depth f f' hd hf hf'
      have hdeep : 1000 < depth := by omega
      rw [convertNode_deep f st node path depth hdeep,
        convertNode_deep f' st node path depth hdeep]
    | succ d ihd =>
      intro node path depth f f' hd hf hf'
      by_cases hdeep : 1000 < depth
      · rw [convertNode_deep f st node path depth hdeep,
          convertNode_deep f' st node path depth hdeep]
      · obtain ⟨fa, rfl⟩ : ∃ fa, f = fa + 1 := ⟨f - 1, by omega⟩
        obtain ⟨fb, rfl⟩ : ∃ fb, f' = fb + 1 := ⟨f' - 1, by omega⟩
        have hgo : ∀ j p, convertNode fa st j p (depth + 1) =
            convertNode fb st j p (depth + 1) := by
          intro j p
          exact ihd j p (depth + 1) fa fb (by omega) (by omega) (by omega)
        have hchild : convertChild
            (fun j p => convertNode fa st j p (depth + 1)) node path =
            convertChild (fun j p => convertNode fb st j p (depth + 1))
              node path :=
          convertChild_congr _ _ hgo node path
        cases hpa : alookup st.pseudoArrays path with
        | none =>
          rw [convertNode_succ_none fa st node path depth hdeep hpa,
            convertNode_succ_none fb st node path depth hdeep hpa, hchild]
        | some objs =>
          rw [convertNode_succ_some fa st node path depth objs hdeep hpa,
            convertNode_succ_some fb st node path depth objs hdeep hpa]
          have helem :
              elementAt fa ((objs.flatMap objValues).foldl addObjectPA
                freshPA) =
              elementAt fb ((objs.flatMap objValues).foldl addObjectPA
                freshPA) := by
            cases objs with
            | nil =>
              have hIe : ((([] : List Json).flatMap objValues).foldl
                  addObjectPA freshPA).pseudoArrays = [] := rfl
              rw [elementAt_of_empty fa _ hIe, elementAt_of_empty fb _ hIe]
            | cons o rest =>
              have hpm := inner_pmeasure_lt st path o rest hpa
              have hP2 : 2 ≤ P := by omega
              obtain ⟨ga, rfl⟩ : ∃ ga, fa = ga + 1 := ⟨fa - 1, by omega⟩
              obtain ⟨gb, rfl⟩ : ∃ gb, fb = gb + 1 := ⟨fb - 1, by omega⟩
              show convertNode ga _ _ "#" 0 = convertNode gb _ _ "#" 0
              exact ihP
                (pmeasure (((o :: rest).flatMap objValues).foldl
                  addObjectPA freshPA))
                (by omega) _ le_rfl 1001 _ "#" 0 ga gb (by omega)
                (by omega) (by omega)
          simp only [helem, hchild]

/-! ## Symbolic evaluation of the pipeline on a numeric-keyed object -/

theorem foldl_insertNew_nodup :
    ∀ (ks : List String) (acc : List String), (acc ++ ks).Nodup →
      ks.foldl insertNew acc = acc ++ ks := by
  intro ks
  induction ks with
  | nil => intro acc h; simp
  | cons k t ih =>
    intro acc h
    rw [List.foldl_cons]
    have hkn : k ∉ acc := by
      intro hmem
      rcases List.nodup_append.mp h with ⟨h1, h2, h3x⟩
      exact h3x hmem (List.mem_cons_self k t)
    have hins : insertNew acc k = acc ++ [k] := by
      unfold insertNew
      rw [if_neg hkn]
    rw [hins]
    rw [ih (acc ++ [k]) (by simpa using h)]
    simp

theorem unionKeys_nil_nodup (ks : List String) (h : ks.Nodup) :
    unionKeys [] ks = ks := by
  show ks.foldl insertNew [] = ks
  have := foldl_insertNew_nodup ks [] (by simpa using h)
  simpa using this

/-- One collect step on an object node with at least three keys whose
detection finds a pattern and rejects a nonempty set: record the object
and merge the rejects, without descending. -/
theorem collectPseudo_succ_obj_found (b : Nat) (st : PAState)
    (kvs : List (String × Json)) (path : String) (pinfo : PatternInfo)
    (rej : List String) (h3 : 3 ≤ kvs.length)
    (hdet : detectPatternWithRejects (kvs.map (fun kv => kv.1))
        ((alookup st.blacklist path).getD []) = (some pinfo, rej))
    (hrne : rej.isEmpty = false) :
    collectPseudo (b + 1) st (Json.obj kvs) path =
      { st with
        pathKeys := aset st.pathKeys path
          (unionKeys ((alookup st.pathKeys path).getD [])
            (kvs.map (fun kv => kv.1))),
        pseudoArrays := aset st.pseudoArrays path
          (((alookup st.pseudoArrays path).getD []) ++ [Json.obj kvs]),
        blacklist := aset st.blacklist path
          (unionKeys ((alookup st.blacklist path).getD []) rej) } := by
  conv_lhs => unfold collectPseudo
  dsimp only
  rw [if_pos h3, hdet]
  dsimp only
  rw [hrne]
  rw [if_neg Bool.false_ne_true]

theorem collect_numeric (kvs : List (String × Json))
    (hk : ∀ kv ∈ kvs, pyIsDigit kv.1 = true)
    (hnd : (kvs.map (fun kv => kv.1)).Nodup)
    (h3 : 3 ≤ kvs.length) :
    collectPseudo 1001 freshPA (Json.obj [("orders", Json.obj kvs)]) "#" =
      { pathKeys := [("#", ["orders"]),
          ("#/orders", kvs.map (fun kv => kv.1))],
        pseudoArrays := [("#/orders", [Json.obj kvs])],
        blacklist := [("#/orders", rejectedNonNumeric)],
        root := emptyGNode } := by
  have hk2 : ∀ k ∈ kvs.map (fun kv => kv.1), pyIsDigit k = true := by
    intro k hkm
    obtain ⟨kv, hmem, heq⟩ := List.mem_map.mp hkm
    subst heq
    exact hk kv hmem
  have h32 : 3 ≤ (kvs.map (fun kv => kv.1)).length := by
    rw [List.length_map]
    exact h3
  have hstep1 : collectPseudo 1001 freshPA
      (Json.obj [("orders", Json.obj kvs)]) "#" =
      collectPseudo 1000
        { pathKeys := [("#", ["orders"])], pseudoArrays := [],
          blacklist := [], root := emptyGNode }
        (Json.obj kvs) "#/orders" := by
    rfl
  rw [hstep1]
  rw [show (1000 : Nat) = 999 + 1 from rfl]
  rw [collectPseudo_succ_obj_found 999
    { pathKeys := [("#", ["orders"])], pseudoArrays := [],
      blacklist := [], root := emptyGNode } kvs "#/orders"
    (mkPatternInfo NumericStringDetector) rejectedNonNumeric h3
    (detect_digit_keys _ _ hk2 h32 (Or.inl rfl)) (by decide)]
  dsimp only
  rw [show (alookup ([("#", ["orders"])] : List (String × List String))
      "#/orders").getD [] = [] from rfl]
  rw [unionKeys_nil_nodup _ hnd]
  rfl

/-! ## The genson root shape for one wrapper key -/

theorem addObject_top (f : Nat) (k : String) (v : Json) :
    addObjectNodeF (f + 4) emptyGNode (Json.obj [(k, v)]) =
      GNode.mk [GStrat.gobj [(k, addObjectNodeF f emptyGNode v)] []
        (some [k]) []] := rfl

/-- The property node built below the single wrapper key. -/
def ordersInnerNode (kvs : List (String × Json)) : GNode :=
  addObjectNodeF (5 * jsize (Json.obj kvs) + 11) emptyGNode (Json.obj kvs)

/-- The converter state reached by add_object on the wrapper document. -/
def ordersState (kvs : List (String × Json)) : PAState :=
  { pathKeys := [("#", ["orders"]), ("#/orders", kvs.map (fun kv => kv.1))],
    pseudoArrays := [("#/orders", [Json.obj kvs])],
    blacklist := [("#/orders", rejectedNonNumeric)],
    root := GNode.mk [GStrat.gobj [("orders", ordersInnerNode kvs)] []
      (some ["orders"]) []] }

theorem root_shape (kvs : List (String × Json)) :
    addObjectNode emptyGNode (Json.obj [("orders", Json.obj kvs)]) =
      GNode.mk [GStrat.gobj [("orders", ordersInnerNode kvs)] []
        (some ["orders"]) []] := by
  unfold addObjectNode
  have hjf : jfuel (Json.obj [("orders", Json.obj kvs)]) =
      (5 * jsize (Json.obj kvs) + 11) + 4 := by
    show 5 * jsize (Json.obj [("orders", Json.obj kvs)]) + 5 = _
    have hsz : jsize (Json.obj [("orders", Json.obj kvs)]) =
        2 + jsize (Json.obj kvs) := by
      show 1 + (1 + jsize (Json.obj kvs) + 0) = _
      omega
    omega
  rw [hjf]
  exact addObject_top _ _ _

theorem toSchema_root_shape (k : String) (n : GNode) :
    toSchemaNode (GNode.mk [GStrat.gobj [(k, n)] [] (some [k]) []]) =
      Json.obj [("type", Json.str "object"),
        ("properties", Json.obj [(k, toSchemaNode n)]),
        ("required", Json.arr [Json.str k])] := rfl

theorem builderDoc_orders (kvs : List (String × Json)) :
    builderDoc (ordersState kvs) =
      Json.obj [("$schema", Json.str schemaUri),
        ("type", Json.str "object"),
        ("properties", Json.obj
          [("orders", toSchemaNode (ordersInnerNode kvs))]),
        ("required", Json.arr [Json.str "orders"])] := by
  unfold builderDoc
  rw [show (ordersState kvs).root =
    GNode.mk [GStrat.gobj [("orders", ordersInnerNode kvs)] []
      (some ["orders"]) []] from rfl]
  rw [toSchema_root_shape]
  rfl

theorem toSchemaFuelPA_succ (g : Nat) (st : PAState) :
    toSchemaFuelPA (g + 1) st = convertNode g st (builderDoc st) "#" 0 := rfl

/-- The full walk on the wrapper document at generic fuel: the orders
node is replaced by the pattern node with the element at one smaller
fuel. -/
theorem ordersWalk (kvs : List (String × Json))
    (hk : ∀ kv ∈ kvs, pyIsDigit kv.1 = true) (h3 : 3 ≤ kvs.length) :
    ∀ f, convertNode ((f + 1) + 1) (ordersState kvs)
        (builderDoc (ordersState kvs)) "#" 0 =
      Json.obj [("$schema", Json.str schemaUri),
        ("type", Json.str "object"),
        ("properties", Json.obj
          [("orders", pseudoNodeOf (mkPatternInfo NumericStringDetector)
            (elementAt f ((([Json.obj kvs] : List Json).flatMap
              objValues).foldl addObjectPA freshPA))
            rejectedNonNumeric)]),
        ("required", Json.arr [Json.str "orders"])] := by
  have hk2 : ∀ k ∈ kvs.map (fun kv => kv.1), pyIsDigit k = true := by
    intro k hkm
    obtain ⟨kv, hmem, heq⟩ := List.mem_map.mp hkm
    subst heq
    exact hk kv hmem
  have h32 : 3 ≤ (kvs.map (fun kv => kv.1)).length := by
    rw [List.length_map]
    exact h3
  intro f
  rw [convertNode_succ_none (f + 1) (ordersState kvs)
    (builderDoc (ordersState kvs)) "#" 0 (by omega) rfl]
  rw [builderDoc_orders kvs]
  rw [show convertChild
      (fun j p => convertNode (f + 1) (ordersState kvs) j p (0 + 1))
      (Json.obj [("$schema", Json.str schemaUri),
        ("type", Json.str "object"),
        ("properties", Json.obj
          [("orders", toSchemaNode (ordersInnerNode kvs))]),
        ("required", Json.arr [Json.str "orders"])]) "#" =
    Json.obj [("$schema", Json.str schemaUri),
      ("type", Json.str "object"),
      ("properties", Json.obj
        [("orders", convertNode (f + 1) (ordersState kvs)
          (toSchemaNode (ordersInnerNode kvs)) "#/orders" (0 + 1))]),
      ("required", Json.arr [Json.str "orders"])] from rfl]
  rw [convertNode_succ_some f (ordersState kvs)
    (toSchemaNode (ordersInnerNode kvs)) "#/orders" (0 + 1) [Json.obj kvs]
    (by omega) rfl]
  have hd3 : (detectPatternWithRejects
      ((alookup (ordersState kvs).pathKeys "#/orders").getD [])
      ((alookup (ordersState kvs).blacklist "#/orders").getD [])).1 =
      some (mkPatternInfo NumericStringDetector) := by
    rw [show (alookup (ordersState kvs).pathKeys "#/orders").getD [] =
        kvs.map (fun kv => kv.1) from rfl,
      show (alookup (ordersState kvs).blacklist "#/orders").getD [] =
        rejectedNonNumeric from rfl,
      detect_digit_keys _ _ hk2 h32 (Or.inr rfl)]
  rw [hd3]
  rw [show (alookup (ordersState kvs).blacklist "#/orders").getD [] =
    rejectedNonNumeric from rfl]

/-- C2 (amended): ingesting a wrapper object whose inner node has at
least three distinct all-digit keys collapses that node to the pattern
node of the positive-integer detector: the emitted anchored pattern is
the backslash-d form, the element is the recursive union of the value
schemas (the pseudo-array sub-builder over all values), and the node
additionally carries patternComment and the excludePatterns of the five
rejected higher-priority detectors, beside type, propertyNames,
patternProperties and additionalProperties false. -/
theorem numericKeysCollapse (kvs : List (String × Json))
    (hk : ∀ kv ∈ kvs, pyIsDigit kv.1 = true)
    (hnd : (kvs.map (fun kv => kv.1)).Nodup)
    (h3 : 3 ≤ kvs.length) :
    jGetPath (facadeToSchema (facadeAddObject (freshFacade "on")
        (Json.obj [("orders", Json.obj kvs)]))) ["properties", "orders"] =
      some (pseudoNodeOf (mkPatternInfo NumericStringDetector)
        (toSchemaPA ((kvs.map (fun kv => kv.2)).foldl addObjectPA freshPA))
        rejectedNonNumeric) := by
  have hfa : facadeAddObject (freshFacade "on")
      (Json.obj [("orders", Json.obj kvs)]) =
      ({ formatMode := "on", pa := ordersState kvs } : FacadeState) := by
    show ({ formatMode := "on", pa := addObjectPA freshPA (Json.obj [("orders", Json.obj kvs)]) } : FacadeState) = ({ formatMode := "on", pa := ordersState kvs } : FacadeState)
    unfold addObjectPA
    rw [collect_numeric kvs hk hnd h3]
    dsimp only
    rw [root_shape kvs]
    rfl
  rw [hfa]
  rw [show facadeToSchema
      ({ formatMode := "on", pa := ordersState kvs } : FacadeState) =
    toSchemaPA (ordersState kvs) from rfl]
  have hpm : pmeasure (ordersState kvs) = jsize (Json.obj kvs) + 1 := by
    show 1 + jsize (Json.obj kvs) + 0 + 0 = _
    omega
  have hfuel : fuelPA (ordersState kvs) =
      (jsize (Json.obj kvs) + 2) * 2005 := by
    unfold fuelPA
    rw [hpm]
  have hge : 1 ≤ jsize (Json.obj kvs) := jsize_pos _
  rw [show toSchemaPA (ordersState kvs) =
    toSchemaFuelPA (fuelPA (ordersState kvs)) (ordersState kvs) from rfl]
  rw [show fuelPA (ordersState kvs) =
    ((((jsize (Json.obj kvs) + 2) * 2005 - 3) + 1) + 1) + 1 from by
      rw [hfuel]; omega]
  rw [toSchemaFuelPA_succ]
  rw [ordersWalk kvs hk h3 ((jsize (Json.obj kvs) + 2) * 2005 - 3)]
  have hflat : (([Json.obj kvs] : List Json).flatMap objValues) =
      kvs.map (fun kv => kv.2) := by
    simp [objValues]
  rw [hflat]
  have hpmI : pmeasure ((kvs.map (fun kv => kv.2)).foldl addObjectPA
      freshPA) + 1 ≤ jsize (Json.obj kvs) := by
    have h1 := foldl_addObjectPA_pmeasure (kvs.map (fun kv => kv.2)) freshPA
    rw [jsizeList_map_snd] at h1
    have h2 : pmeasure freshPA = 0 := rfl
    have h3b : jsizeKVs kvs + 1 = jsize (Json.obj kvs) := by
      show _ = 1 + jsizeKVs kvs
      omega
    omega
  have helem : elementAt ((jsize (Json.obj kvs) + 2) * 2005 - 3)
      ((kvs.map (fun kv => kv.2)).foldl addObjectPA freshPA) =
      toSchemaPA ((kvs.map (fun kv => kv.2)).foldl addObjectPA freshPA) := by
    rw [show ((jsize (Json.obj kvs) + 2) * 2005 - 3) =
      ((jsize (Json.obj kvs) + 2) * 2005 - 4) + 1 from by omega]
    rw [show elementAt (((jsize (Json.obj kvs) + 2) * 2005 - 4) + 1)
        ((kvs.map (fun kv => kv.2)).foldl addObjectPA freshPA) =
      convertNode ((jsize (Json.obj kvs) + 2) * 2005 - 4)
        ((kvs.map (fun kv => kv.2)).foldl addObjectPA freshPA)
        (builderDoc ((kvs.map (fun kv => kv.2)).foldl addObjectPA freshPA))
        "#" 0 from rfl]
    rw [show toSchemaPA ((kvs.map (fun kv => kv.2)).foldl addObjectPA
        freshPA) =
      toSchemaFuelPA ((pmeasure ((kvs.map (fun kv => kv.2)).foldl
        addObjectPA freshPA) + 1) * 2005)
        ((kvs.map (fun kv => kv.2)).foldl addObjectPA freshPA) from rfl]
    rw [show (pmeasure ((kvs.map (fun kv => kv.2)).foldl addObjectPA
        freshPA) + 1) * 2005 =
      ((pmeasure ((kvs.map (fun kv => kv.2)).foldl addObjectPA freshPA) +
        1) * 2005 - 1) + 1 from by omega]
    rw [toSchemaFuelPA_succ]
    exact convertNode_stable
      (pmeasure ((kvs.map (fun kv => kv.2)).foldl addObjectPA freshPA))
      ((kvs.map (fun kv => kv.2)).foldl addObjectPA freshPA) le_rfl 1001
      (builderDoc ((kvs.map (fun kv => kv.2)).foldl addObjectPA freshPA))
      "#" 0 ((jsize (Json.obj kvs) + 2) * 2005 - 4)
      ((pmeasure ((kvs.map (fun kv => kv.2)).foldl addObjectPA freshPA) +
        1) * 2005 - 1) (by omega) (by omega) (by omega)
  rw [helem]
  rfl

/-- C2 witness: the specification example itself, with integer values. -/
theorem numericKeysCollapse_witness :
    (∀ kv ∈ [("0", Json.int 1), ("1", Json.int 2), ("2", Json.int 3)],
        pyIsDigit kv.1 = true) ∧
      jGetPath (facadeToSchema (facadeAddObject (freshFacade "on")
          (Json.obj [("orders", Json.obj
            [("0", Json.int 1), ("1", Json.int 2), ("2", Json.int 3)])])))
          ["properties", "orders"] =
        some (pseudoNodeOf (mkPatternInfo NumericStringDetector)
          (toSchemaPA (([Json.int 1, Json.int 2, Json.int 3] :
            List Json).foldl addObjectPA freshPA))
          rejectedNonNumeric) :=
  ⟨by decide,
    numericKeysCollapse
      [("0", Json.int 1), ("1", Json.int 2), ("2", Json.int 3)]
      (by decide) (by decide) (by decide)⟩

end JSSnap
